import Mathlib

/-!
Verification of the donation-form OCR pipeline (payment detection, extraction,
preprocessing and detection stages) against its natural-language specification.

Text is modelled as `List Char`; JavaScript number arithmetic on confidences is
modelled with `ℚ`; integer parsing of digit strings is modelled with `Nat`.
External collaborators (the OCR engine, the PDF rasterizer, the image library)
are modelled as explicit function parameters or per-call outcome data, so that
the pipeline's own control flow is embedded exactly.
-/

/-! ## Character and string helpers (JavaScript semantics) -/

/-- The characters of a string literal. -/
def str (s : String) : List Char := s.toList

/-- JavaScript `toLowerCase` restricted to ASCII (all texts in play are ASCII
plus the checkmark character, which lowercases to itself). -/
def lowerC (c : Char) : Char :=
  if 65 ≤ c.toNat ∧ c.toNat ≤ 90 then Char.ofNat (c.toNat + 32) else c

/-- Regex class `\d`. -/
def isDigitC (c : Char) : Bool := decide (48 ≤ c.toNat ∧ c.toNat ≤ 57)

/-- Regex class `[A-Za-z]`. -/
def isAlphaC (c : Char) : Bool :=
  decide ((65 ≤ c.toNat ∧ c.toNat ≤ 90) ∨ (97 ≤ c.toNat ∧ c.toNat ≤ 122))

/-- Regex class `\s` (JavaScript whitespace, the code points that occur in
this codebase's texts: space, tab, LF, VT, FF, CR -- the check also covers the
code points the claims exercise). -/
def jsWs (c : Char) : Bool :=
  c == ' ' || c == '\t' || c == '\n' || c == '\r' ||
  c == Char.ofNat 11 || c == Char.ofNat 12

/-- Regex class `[:\s]`. -/
def colonWs (c : Char) : Bool := c == ':' || jsWs c

/-- Regex class `[A-Za-z\s]`. -/
def alphaWs (c : Char) : Bool := isAlphaC c || jsWs c

/-- Regex character range test, e.g. `[1-5]`. -/
def between (lo hi c : Char) : Bool := decide (lo.toNat ≤ c.toNat ∧ c.toNat ≤ hi.toNat)

/-- Numeric value of a digit character. -/
def chVal (c : Char) : Nat := c.toNat - 48

/-- `parseInt` on a string of decimal digits. -/
def parseDigits (ds : List Char) : Nat := ds.foldl (fun a c => a * 10 + chVal c) 0

/-- `p.isPrefixOf l` as JavaScript `startsWith`. -/
def startsWithL : List Char → List Char → Bool
  | [], _ => true
  | _ :: _, [] => false
  | p :: ps, x :: xs => p == x && startsWithL ps xs

/-- JavaScript `String.prototype.includes`. -/
def containsSub (p : List Char) : List Char → Bool
  | [] => p.isEmpty
  | c :: rest => startsWithL p (c :: rest) || containsSub p rest

/-- First position (left to right) where a matcher succeeds: the regex engine's
scan for an unanchored match. -/
def scanFirst {α : Type} (f : List Char → Option α) : List Char → Option α
  | [] => f []
  | c :: rest => (f (c :: rest)).orElse fun _ => scanFirst f rest

/-- First element of `xs` on which `f` succeeds. -/
def firstSome {α β : Type} (f : α → Option β) : List α → Option β
  | [] => none
  | a :: t => (f a).orElse fun _ => firstSome f t

/-- `n, n-1, …, 0`: the order a greedy backtracking quantifier tries lengths in. -/
def downFrom : Nat → List Nat
  | 0 => [0]
  | n + 1 => (n + 1) :: downFrom n

/-- JavaScript `String.prototype.trim`. -/
def jsTrim (l : List Char) : List Char :=
  ((l.dropWhile jsWs).reverse.dropWhile jsWs).reverse

/-- JavaScript `s.slice(-n)` for `n > 0`: the last `n` characters. -/
def lastN (n : Nat) (l : List Char) : List Char := l.drop (l.length - n)

/-- Case-insensitive literal match: consume `cue` (written lowercased) from the
front of `l`, returning the rest. -/
def dropCI : List Char → List Char → Option (List Char)
  | [], l => some l
  | _ :: _, [] => none
  | c :: cs, x :: xs => if lowerC x = c then dropCI cs xs else none

/-! ## payment-detection.ts : card utilities -/

/-- `CARD_TYPES.visa.pattern`, `/^4/`. -/
def visaPat (c : List Char) : Bool := startsWithL (str "4") c

/-- `CARD_TYPES.mastercard.pattern`, `/^(5[1-5]|2[2-7])/`. -/
def mastercardPat (c : List Char) : Bool :=
  match c with
  | a :: b :: _ => (a == '5' && between '1' '5' b) || (a == '2' && between '2' '7' b)
  | _ => false

/-- `CARD_TYPES.amex.pattern`, `/^3[47]/`. -/
def amexPat (c : List Char) : Bool :=
  match c with
  | a :: b :: _ => a == '3' && (b == '4' || b == '7')
  | _ => false

/-- `CARD_TYPES.discover.pattern`, `/^(6011|65|64[4-9]|622)/`. -/
def discoverPat (c : List Char) : Bool :=
  startsWithL (str "6011") c || startsWithL (str "65") c ||
  (match c with
   | '6' :: '4' :: b :: _ => between '4' '9' b
   | _ => false) ||
  startsWithL (str "622") c

/-- `CARD_TYPES.dinersclub.pattern`, `/^(30[0-5]|36|38)/`. -/
def dinersPat (c : List Char) : Bool :=
  (match c with
   | '3' :: '0' :: b :: _ => between '0' '5' b
   | _ => false) ||
  startsWithL (str "36") c || startsWithL (str "38") c

/-- `CARD_TYPES.jcb.pattern`, `/^35/`. -/
def jcbPat (c : List Char) : Bool := startsWithL (str "35") c

/-- `CARD_TYPES.unionpay.pattern`, `/^62/`. -/
def unionpayPat (c : List Char) : Bool := startsWithL (str "62") c

/-- `CARD_TYPES` (payment-detection.ts lines 18-68), reduced to the data the
claims exercise: insertion-ordered `(name, pattern test, gaps)`. -/
def CARD_TYPES : List (List Char × (List Char → Bool) × List Nat) :=
  [ (str "Visa", visaPat, [4, 8, 12]),
    (str "Mastercard", mastercardPat, [4, 8, 12]),
    (str "American Express", amexPat, [4, 10]),
    (str "Discover", discoverPat, [4, 8, 12]),
    (str "Diners Club", dinersPat, [4, 10]),
    (str "JCB", jcbPat, [4, 8, 12]),
    (str "UnionPay", unionpayPat, [4, 8, 12]) ]

/-- `cardNumber.replace(/\D/g, '')`. -/
def cleanDigits (l : List Char) : List Char := l.filter isDigitC

/-- `detectCardType` (payment-detection.ts lines 73-83): first `CARD_TYPES`
entry whose pattern tests true on the cleaned number, else `'Unknown'`. -/
def detectCardType (cardNumber : List Char) : List Char :=
  let cleanNumber := cleanDigits cardNumber
  match CARD_TYPES.find? (fun e => e.2.1 cleanNumber) with
  | some e => e.1
  | none => str "Unknown"

/-- The digit-summing loop of `validateCardNumber` (lines 156-171), processing
the cleaned number from its rightmost digit with the `isEven` toggle. -/
def luhnGo : List Char → Bool → Nat
  | [], _ => 0
  | c :: rest, isEven =>
    (if isEven then
       (if chVal c * 2 > 9 then chVal c * 2 - 9 else chVal c * 2)
     else chVal c) + luhnGo rest (!isEven)

/-- `validateCardNumber` (payment-detection.ts lines 149-174). -/
def validateCardNumber (cardNumber : List Char) : Bool :=
  let cleanNumber := cleanDigits cardNumber
  if cleanNumber.length < 13 || cleanNumber.length > 19 then false
  else luhnGo cleanNumber.reverse false % 10 == 0

/-! ## Extractor.extractAmount (payment-detection.ts lines 1268-1276)

The regex `/\$(\d{1,3}(?:,\d{3})*)/g` scanned left to right, non-overlapping.
-/

/-- The `(?:,\d{3})*` part: greedily consume groups of `,ddd`, returning the
digits collected and the number of characters consumed. -/
def matchGroupsN : List Char → (List Char × Nat)
  | ',' :: a :: b :: c :: rest =>
    if isDigitC a && isDigitC b && isDigitC c then
      let (ds, k) := matchGroupsN rest
      (a :: b :: c :: ds, k + 4)
    else ([], 0)
  | _ => ([], 0)

/-- Match `\d{1,3}(?:,\d{3})*` at the head of `l` (the part after a `$`),
returning the parsed value and the unconsumed suffix. `\d{1,3}` is greedy and,
being followed only by a star, never gives digits back. -/
def amountAt (l : List Char) : Option (Nat × List Char) :=
  let ds := (l.take 3).takeWhile isDigitC
  if ds.isEmpty then none
  else
    let (gs, k) := matchGroupsN (l.drop ds.length)
    some (parseDigits (ds ++ gs), l.drop (ds.length + k))

/-- All values matched by `/\$(\d{1,3}(?:,\d{3})*)/g`, with `$` and commas
stripped and parsed, in scan order. The fuel starts at the text's length; each
successful match consumes at least one character beyond the scan position, so
the fuel never runs out before the scan ends. -/
def scanAmountsGo : Nat → List Char → List Nat
  | 0, _ => []
  | _, [] => []
  | fuel + 1, '$' :: rest =>
    match amountAt rest with
    | some (n, r) => n :: scanAmountsGo fuel r
    | none => scanAmountsGo fuel rest
  | fuel + 1, _ :: rest => scanAmountsGo fuel rest

/-- The match values of the amount regex over the whole text. -/
def scanAmounts (l : List Char) : List Nat := scanAmountsGo l.length l

/-- `Extractor.extractAmount` (lines 1268-1276): first match value in the
donation band [25, 25000], else 0 (`donationAmount || 0` with no match ⇒ 0). -/
def extractAmount (text : List Char) : Nat :=
  let amounts := scanAmounts text
  match amounts.find? (fun amt => decide (25 ≤ amt) && decide (amt ≤ 25000)) with
  | some a => a
  | none => 0

/-! ## Spec-side formulations -/

/-- Spec: "doubling every second digit from the right, subtracting 9 from
doubled values above 9". -/
def luhnDouble (d : Nat) : Nat := if d * 2 > 9 then d * 2 - 9 else d * 2

/-- Spec-side Luhn checksum of a digit list (most significant first): double
every second digit counted from the right, adjust, sum. -/
def luhnChecksum (ds : List Nat) : Nat :=
  (ds.reverse.mapIdx fun i d => if i % 2 = 1 then luhnDouble d else d).sum

/-! ## Supporting lemmas -/

theorem find?_eq_filter_head {α : Type} (p : α → Bool) (l : List α) :
    l.find? p = (l.filter p).head? := by
  induction l with
  | nil => rfl
  | cons a t ih =>
    by_cases h : p a = true
    · rw [List.find?_cons_of_pos _ h, List.filter_cons_of_pos h, List.head?_cons]
    · simp only [Bool.not_eq_true] at h
      rw [List.find?_cons_of_neg _ (by simp [h]), List.filter_cons_of_neg (by simp [h]), ih]

theorem negParity (k : Nat) : (!decide (k % 2 = 1)) = decide ((k + 1) % 2 = 1) := by
  have h : (k + 1) % 2 = (k % 2 + 1) % 2 := by omega
  rw [h]
  rcases Nat.mod_two_eq_zero_or_one k with h0 | h0 <;> rw [h0] <;> decide

theorem luhnGo_eq (l : List Char) :
    ∀ k : Nat, luhnGo l (decide (k % 2 = 1)) =
      ((l.map chVal).mapIdx fun i d => if (i + k) % 2 = 1 then luhnDouble d else d).sum := by
  induction l with
  | nil => intro k; simp [luhnGo]
  | cons c t ih =>
    intro k
    have h1 : (!decide (k % 2 = 1)) = decide ((k + 1) % 2 = 1) := negParity k
    have h2 := ih (k + 1)
    simp only [luhnGo, h1, h2, List.map_cons, List.mapIdx_cons, List.sum_cons]
    have hfg : (fun i (d : ℕ) => if (i + 1 + k) % 2 = 1 then luhnDouble d else d)
        = (fun i d => if (i + (k + 1)) % 2 = 1 then luhnDouble d else d) := by
      funext i d
      have hik : i + 1 + k = i + (k + 1) := by omega
      rw [hik]
    rw [hfg]
    have hz : (0 : Nat) + k = k := by omega
    rw [hz]
    by_cases hk : k % 2 = 1 <;> simp [hk, luhnDouble]

/-! ## Claim theorems: C2, C3 -/

/-- C2: for every input text, `extractAmount` returns the value of the first
`$`-prefixed, comma-grouped match whose value lies in the closed band
[25, 25000] and returns 0 when no in-band match exists (no out-of-band
fallback); in particular a text containing `$24` then `$150` yields 150, and
`"$10"` yields 0. -/
theorem C2_extractAmount_band :
    (∀ t : List Char,
      extractAmount t =
        ((scanAmounts t).filter fun a => decide (25 ≤ a ∧ a ≤ 25000)).headD 0)
    ∧ extractAmount (str "page 1 of 2 ... $24 ... $150 ... thank you") = 150
    ∧ extractAmount (str "$10") = 0 := by
  refine ⟨fun t => ?_, by decide, by decide⟩
  have hp : (fun a => decide (25 ≤ a ∧ a ≤ 25000))
      = (fun amt => decide (25 ≤ amt) && decide (amt ≤ 25000)) := by
    funext a
    by_cases h1 : 25 ≤ a <;> by_cases h2 : a ≤ 25000 <;> simp [h1, h2]
  rw [hp]
  simp only [extractAmount, find?_eq_filter_head, List.headD_eq_head?_getD]
  cases ((scanAmounts t).filter fun amt => decide (25 ≤ amt) && decide (amt ≤ 25000)).head? <;>
    rfl

/-- C3: `validateCardNumber` returns true on an input whose digit count is in
13..19 iff the Luhn checksum of its digit string is 0 mod 10, and returns
false whenever the digit count is outside 13..19. -/
theorem C3_validateCardNumber_luhn (s : List Char) :
    (13 ≤ (cleanDigits s).length → (cleanDigits s).length ≤ 19 →
      (validateCardNumber s = true ↔ luhnChecksum ((cleanDigits s).map chVal) % 10 = 0))
    ∧ ((cleanDigits s).length < 13 ∨ 19 < (cleanDigits s).length →
      validateCardNumber s = false) := by
  constructor
  · intro h13 h19
    have hcond : (decide ((cleanDigits s).length < 13) || decide (19 < (cleanDigits s).length)) = false := by
      simp; omega
    have hk := luhnGo_eq (cleanDigits s).reverse 0
    simp only [Nat.mod_two_eq_zero_or_one, decide_eq_true_eq] at hk
    have hz : (decide ((0 : Nat) % 2 = 1)) = false := by decide
    rw [hz] at hk
    simp only [validateCardNumber, luhnChecksum]
    rw [show ((cleanDigits s).length < 13 || (cleanDigits s).length > 19) = false from hcond]
    simp only [if_false, Bool.false_eq_true]
    rw [hk]
    have hrm : ((cleanDigits s).map chVal).reverse = ((cleanDigits s).reverse.map chVal) := by
      simp [List.map_reverse]
    rw [hrm]
    simp only [Nat.add_zero]
    exact ⟨fun h => by simpa using h, fun h => by simpa using h⟩
  · intro h
    simp only [validateCardNumber]
    have hcond : ((cleanDigits s).length < 13 || (cleanDigits s).length > 19) = true := by
      simp; omega
    rw [hcond]
    simp

/-! ## formatCardNumber / maskCardNumber (payment-detection.ts lines 179-221) -/

/-- The gap-insertion loop of `formatCardNumber` (lines 188-199): for each gap,
if the cleaned number is longer than the gap, emit `slice(lastGap, gap)` plus a
space and advance `lastGap`; after the loop the tail `slice(lastGap)` follows. -/
def formatGapsGo (cleanNumber : List Char) : List Nat → Nat → List Char
  | [], lastGap => cleanNumber.drop lastGap
  | g :: gs, lastGap =>
    if cleanNumber.length > g then
      (cleanNumber.drop lastGap).take (g - lastGap) ++ [' '] ++ formatGapsGo cleanNumber gs g
    else formatGapsGo cleanNumber gs lastGap

/-- Default formatting `clean.replace(/(.{4})/g, '$1 ')` (line 204): append a
space after every complete group of four characters. -/
def group4 : List Char → List Char
  | a :: b :: c :: d :: rest => a :: b :: c :: d :: ' ' :: group4 rest
  | l => l

/-- Body of `formatCardNumber` after the input is cleaned (split out so the
masking proofs can reason about the cleaned number directly). -/
def formatClean (cleanNumber : List Char) : List Char :=
  match CARD_TYPES.find? (fun e => decide (e.1 = detectCardType cleanNumber)) with
  | some e => jsTrim (formatGapsGo cleanNumber e.2.2 0)
  | none => jsTrim (group4 cleanNumber)

/-- `formatCardNumber` (lines 179-205), at the one-argument call sites the
claims exercise (`cardType` omitted, so the type is `detectCardType(clean)`). -/
def formatCardNumber (cardNumber : List Char) : List Char :=
  formatClean (cleanDigits cardNumber)

/-- `maskCardNumber` (lines 210-221). The claims use the default
`visibleDigits = 4`. JS `slice(-0)` yields the whole string, hence the
`visibleDigits = 0` case split. -/
def maskCardNumber (cardNumber : List Char) (visibleDigits : Nat) : List Char :=
  if (cleanDigits cardNumber).length ≤ visibleDigits then
    List.replicate (cleanDigits cardNumber).length '*'
  else
    formatCardNumber
      (List.replicate ((cleanDigits cardNumber).length - visibleDigits) '*' ++
        (if visibleDigits = 0 then cleanDigits cardNumber
         else lastN visibleDigits (cleanDigits cardNumber)))

/-- The non-asterisk suffix of a displayed card number (the digits a reader
sees after the masking prefix). -/
def visibleSuffix (l : List Char) : List Char :=
  (l.reverse.takeWhile fun c => !(c == '*')).reverse

/-! ### Digit-preservation lemmas for the masking claims -/

theorem jsWs_not_digit {c : Char} (h : jsWs c = true) : isDigitC c = false := by
  simp only [jsWs, Bool.or_eq_true, beq_iff_eq] at h
  rcases h with ((((h | h) | h) | h) | h) | h <;> subst h <;> decide

theorem digit_not_jsWs {c : Char} (h : isDigitC c = true) : jsWs c = false := by
  cases hw : jsWs c
  · rfl
  · rw [jsWs_not_digit hw] at h; exact absurd h (by simp)

theorem cleanDigits_mem_digit {l : List Char} : ∀ c ∈ cleanDigits l, isDigitC c = true :=
  fun _ hc => (List.mem_filter.mp hc).2

theorem cleanDigits_eq_self {l : List Char} (h : ∀ c ∈ l, isDigitC c = true) :
    cleanDigits l = l := List.filter_eq_self.mpr h

theorem dropWhile_eq_self_of (p : Char → Bool) {l : List Char}
    (h : ∀ c ∈ l, p c = false) : l.dropWhile p = l := by
  cases l with
  | nil => rfl
  | cons a t => rw [List.dropWhile_cons, h a (List.mem_cons_self a t)]; simp

theorem jsTrim_eq_self {l : List Char} (h : ∀ c ∈ l, jsWs c = false) : jsTrim l = l := by
  unfold jsTrim
  rw [dropWhile_eq_self_of _ h]
  rw [dropWhile_eq_self_of _ (fun c hc => h c (List.mem_reverse.mp hc))]
  exact List.reverse_reverse l

theorem cleanDigits_append (a b : List Char) :
    cleanDigits (a ++ b) = cleanDigits a ++ cleanDigits b := List.filter_append a b

theorem cleanDigits_dropWhileWs (l : List Char) :
    cleanDigits (l.dropWhile jsWs) = cleanDigits l := by
  induction l with
  | nil => rfl
  | cons a t ih =>
    by_cases h : jsWs a = true
    · rw [List.dropWhile_cons, h]
      simp only [if_true]
      rw [ih]
      show cleanDigits t = List.filter isDigitC (a :: t)
      rw [List.filter_cons_of_neg (by simp [jsWs_not_digit h])]
      rfl
    · simp only [Bool.not_eq_true] at h
      rw [List.dropWhile_cons, h]
      simp

theorem cleanDigits_reverse (l : List Char) :
    cleanDigits l.reverse = (cleanDigits l).reverse := by
  induction l with
  | nil => rfl
  | cons a t ih =>
    rw [List.reverse_cons, cleanDigits_append, ih]
    by_cases h : isDigitC a = true
    · rw [show cleanDigits [a] = [a] from by
        unfold cleanDigits; rw [List.filter_cons_of_pos h]; rfl]
      rw [show cleanDigits (a :: t) = a :: cleanDigits t from by
        unfold cleanDigits; rw [List.filter_cons_of_pos h]]
      rw [List.reverse_cons]
    · rw [show cleanDigits [a] = [] from by
        unfold cleanDigits; rw [List.filter_cons_of_neg (by simp [h])]; rfl]
      rw [show cleanDigits (a :: t) = cleanDigits t from by
        unfold cleanDigits; rw [List.filter_cons_of_neg (by simp [h])]]
      rw [List.append_nil]

theorem cleanDigits_jsTrim (l : List Char) : cleanDigits (jsTrim l) = cleanDigits l := by
  unfold jsTrim
  rw [cleanDigits_reverse, cleanDigits_dropWhileWs, cleanDigits_reverse,
    List.reverse_reverse, cleanDigits_dropWhileWs]

theorem recompose (l : List Char) (a b : Nat) (hab : a ≤ b) :
    (l.drop a).take (b - a) ++ l.drop b = l.drop a := by
  have h1 := List.take_append_drop (b - a) (l.drop a)
  rw [List.drop_drop] at h1
  rw [show a + (b - a) = b from by omega] at h1
  exact h1

theorem chain_le_of_le {a a' : Nat} {l : List Nat} (h : a' ≤ a)
    (hch : List.Chain (· ≤ ·) a l) : List.Chain (· ≤ ·) a' l := by
  cases l with
  | nil => exact List.Chain.nil
  | cons b t =>
    rcases List.chain_cons.mp hch with ⟨hab, hrest⟩
    exact List.chain_cons.mpr ⟨le_trans h hab, hrest⟩

theorem fmtGaps_digits (cn : List Char) (h : ∀ c ∈ cn, isDigitC c = true) :
    ∀ (gs : List Nat) (lastGap : Nat), List.Chain (· ≤ ·) lastGap gs →
      cleanDigits (formatGapsGo cn gs lastGap) = cn.drop lastGap := by
  intro gs
  induction gs with
  | nil =>
    intro lastGap _
    exact cleanDigits_eq_self fun c hc => h c (List.mem_of_mem_drop hc)
  | cons g gs ih =>
    intro lastGap hch
    rcases List.chain_cons.mp hch with ⟨hle, hch'⟩
    simp only [formatGapsGo]
    by_cases hlen : cn.length > g
    · rw [if_pos hlen, cleanDigits_append, cleanDigits_append, ih g hch']
      rw [cleanDigits_eq_self
        (fun c hc => h c (List.mem_of_mem_drop (List.mem_of_mem_take hc)))]
      simp only [show cleanDigits [' '] = [] from rfl, List.append_nil]
      exact recompose cn lastGap g hle
    · rw [if_neg hlen]
      exact ih lastGap (chain_le_of_le hle hch')

theorem group4_digits : ∀ (cn : List Char), (∀ c ∈ cn, isDigitC c = true) →
    cleanDigits (group4 cn) = cn
  | a :: b :: c :: d :: rest, h => by
    have ha := h a (by simp)
    have hb := h b (by simp)
    have hc := h c (by simp)
    have hd := h d (by simp)
    have ih := group4_digits rest (fun x hx => h x (by simp [hx]))
    show cleanDigits (a :: b :: c :: d :: ' ' :: group4 rest) = a :: b :: c :: d :: rest
    unfold cleanDigits
    rw [List.filter_cons_of_pos ha, List.filter_cons_of_pos hb,
      List.filter_cons_of_pos hc, List.filter_cons_of_pos hd,
      List.filter_cons_of_neg (by decide)]
    unfold cleanDigits at ih
    rw [ih]
  | [], _ => rfl
  | [a], h => cleanDigits_eq_self h
  | [a, b], h => cleanDigits_eq_self h
  | [a, b, c], h => cleanDigits_eq_self h

theorem takeWhile_eq_self_of (p : Char → Bool) {l : List Char}
    (h : ∀ c ∈ l, p c = true) : l.takeWhile p = l := by
  induction l with
  | nil => rfl
  | cons a t ih =>
    rw [List.takeWhile_cons, h a (List.mem_cons_self a t)]
    simp only [if_true]
    rw [ih fun c hc => h c (List.mem_cons_of_mem a hc)]

theorem visibleSuffix_of_digits {l : List Char} (h : ∀ c ∈ l, isDigitC c = true) :
    visibleSuffix l = l := by
  unfold visibleSuffix
  have hall : ∀ c ∈ l.reverse, (!(c == '*')) = true := by
    intro c hc
    have hdg := h c (List.mem_reverse.mp hc)
    have hne : c ≠ '*' := fun he => by rw [he] at hdg; exact absurd hdg (by decide)
    simp [hne]
  rw [takeWhile_eq_self_of _ hall, List.reverse_reverse]

theorem cleanDigits_eq_nil {l : List Char} (h : ∀ c ∈ l, isDigitC c = false) :
    cleanDigits l = [] := by
  induction l with
  | nil => rfl
  | cons a t ih =>
    unfold cleanDigits
    rw [List.filter_cons_of_neg (by simp [h a (List.mem_cons_self a t)])]
    exact ih fun c hc => h c (List.mem_cons_of_mem a hc)

theorem cardGaps_shape {t : List Char} {e : List Char × (List Char → Bool) × List Nat}
    (h : CARD_TYPES.find? (fun e => decide (e.1 = t)) = some e) :
    e.2.2 = [4, 8, 12] ∨ e.2.2 = [4, 10] := by
  have hmem := List.mem_of_find?_eq_some h
  simp only [CARD_TYPES, List.mem_cons, List.not_mem_nil, or_false] at hmem
  rcases hmem with h1 | h1 | h1 | h1 | h1 | h1 | h1 <;> subst h1 <;> simp

theorem chain0_4_8_12 : List.Chain (· ≤ ·) 0 [4, 8, 12] :=
  List.Chain.cons (by omega) (List.Chain.cons (by omega)
    (List.Chain.cons (by omega) List.Chain.nil))

theorem chain0_4_10 : List.Chain (· ≤ ·) 0 [4, 10] :=
  List.Chain.cons (by omega) (List.Chain.cons (by omega) List.Chain.nil)

theorem formatClean_digits (cn : List Char) (h : ∀ c ∈ cn, isDigitC c = true) :
    cleanDigits (formatClean cn) = cn := by
  unfold formatClean
  cases hfind : CARD_TYPES.find? (fun e => decide (e.1 = detectCardType cn)) with
  | some e =>
    rw [cleanDigits_jsTrim]
    rcases cardGaps_shape hfind with hg | hg <;> rw [hg]
    · rw [fmtGaps_digits cn h [4, 8, 12] 0 chain0_4_8_12, List.drop_zero]
    · rw [fmtGaps_digits cn h [4, 10] 0 chain0_4_10, List.drop_zero]
  | none =>
    rw [cleanDigits_jsTrim, group4_digits cn h]

theorem list_len4 {α : Type} {l : List α} (h : l.length = 4) :
    ∃ a b c d, l = [a, b, c, d] := by
  cases l with
  | nil => simp at h
  | cons a l1 =>
    cases l1 with
    | nil => simp at h
    | cons b l2 =>
      cases l2 with
      | nil => simp at h
      | cons c l3 =>
        cases l3 with
        | nil => simp at h
        | cons d l4 =>
          cases l4 with
          | nil => exact ⟨a, b, c, d, rfl⟩
          | cons e l5 => simp at h

theorem formatClean_four {c4 : List Char} (hdg : ∀ c ∈ c4, isDigitC c = true)
    (hlen : c4.length = 4) : formatClean c4 = c4 := by
  have hws : ∀ c ∈ c4, jsWs c = false := fun c hc => digit_not_jsWs (hdg c hc)
  unfold formatClean
  cases hfind : CARD_TYPES.find? (fun e => decide (e.1 = detectCardType c4)) with
  | some e =>
    show jsTrim (formatGapsGo c4 e.2.2 0) = c4
    have h4 : ¬ (c4.length > 4) := by omega
    have h8 : ¬ (c4.length > 8) := by omega
    have h10 : ¬ (c4.length > 10) := by omega
    have h12 : ¬ (c4.length > 12) := by omega
    rcases cardGaps_shape hfind with hg | hg <;> rw [hg] <;>
      simp only [formatGapsGo, if_neg h4, if_neg h8, if_neg h10, if_neg h12,
        List.drop_zero] <;>
      exact jsTrim_eq_self hws
  | none =>
    show jsTrim (group4 c4) = c4
    obtain ⟨a1, b1, c1, d1, rfl⟩ := list_len4 hlen
    have ha : jsWs a1 = false := hws a1 (by simp)
    have hb : jsWs b1 = false := hws b1 (by simp)
    have hc : jsWs c1 = false := hws c1 (by simp)
    have hd : jsWs d1 = false := hws d1 (by simp)
    show jsTrim (a1 :: b1 :: c1 :: d1 :: ' ' :: group4 []) = [a1, b1, c1, d1]
    simp [jsTrim, group4, List.dropWhile_cons, ha, hb, hc, hd,
      show jsWs ' ' = true from rfl]

theorem maskCardNumber_core (x : List Char) (hx : 4 < (cleanDigits x).length) :
    maskCardNumber x 4 = lastN 4 (cleanDigits x) ∧
      ∀ c ∈ maskCardNumber x 4, isDigitC c = true := by
  have hlast : ∀ c ∈ lastN 4 (cleanDigits x), isDigitC c = true :=
    fun c hc => cleanDigits_mem_digit c (List.mem_of_mem_drop hc)
  have hlen4 : (lastN 4 (cleanDigits x)).length = 4 := by
    simp only [lastN, List.length_drop]
    omega
  have hm : maskCardNumber x 4 = formatClean (lastN 4 (cleanDigits x)) := by
    unfold maskCardNumber
    rw [if_neg (by omega : ¬ (cleanDigits x).length ≤ 4),
      if_neg (by decide : ¬ (4 : Nat) = 0)]
    unfold formatCardNumber
    congr 1
    rw [cleanDigits_append,
      cleanDigits_eq_nil (fun c hc => by
        rw [List.eq_of_mem_replicate hc]; decide),
      cleanDigits_eq_self hlast, List.nil_append]
  rw [hm, formatClean_four hlast hlen4]
  exact ⟨rfl, fun c hc => hlast c hc⟩

/-! ## Claim theorems: C9, C10 -/

/-- C9: masking round-trip -- for every string whose cleaned digit string has
length greater than 4, the visible (non-asterisk) suffix of
`maskCardNumber(formatCardNumber(x))` equals the last 4 digits of the cleaned
input. -/
theorem C9_mask_format_round_trip (x : List Char) (hx : 4 < (cleanDigits x).length) :
    visibleSuffix (maskCardNumber (formatCardNumber x) 4) = lastN 4 (cleanDigits x) := by
  have hfmt : cleanDigits (formatCardNumber x) = cleanDigits x := by
    unfold formatCardNumber
    exact formatClean_digits (cleanDigits x) (fun c hc => cleanDigits_mem_digit c hc)
  have hx' : 4 < (cleanDigits (formatCardNumber x)).length := by rw [hfmt]; exact hx
  obtain ⟨h1, _⟩ := maskCardNumber_core (formatCardNumber x) hx'
  rw [h1, hfmt]
  exact visibleSuffix_of_digits fun c hc => cleanDigits_mem_digit c (List.mem_of_mem_drop hc)

/-- Witness for C9 at a concrete Amex-formatted number. -/
theorem C9_mask_format_round_trip_witness :
    visibleSuffix (maskCardNumber (formatCardNumber (str "378282246310005")) 4) = str "0005" := by
  have h := C9_mask_format_round_trip (str "378282246310005") (by decide)
  rw [h]
  decide

/-- C10: with the default 4 visible digits and a cleaned input longer than 4,
`maskCardNumber` returns exactly the last 4 digits with no `*` at all (the
final `formatCardNumber` pass strips every non-digit from the masked string). -/
theorem C10_maskCardNumber_no_asterisk (x : List Char) (hx : 4 < (cleanDigits x).length) :
    maskCardNumber x 4 = lastN 4 (cleanDigits x) ∧ '*' ∉ maskCardNumber x 4 := by
  obtain ⟨h1, h2⟩ := maskCardNumber_core x hx
  refine ⟨h1, fun hmem => ?_⟩
  exact absurd (h2 '*' hmem) (by decide)

/-- Witness for C10 at a concrete 16-digit number. -/
theorem C10_maskCardNumber_no_asterisk_witness :
    maskCardNumber (str "4111 1111 1111 1234") 4 = str "1234" := by
  have h := (C10_maskCardNumber_no_asterisk (str "4111 1111 1111 1234") (by decide)).1
  rw [h]
  decide

/-! ## Extractor.detectCreditCardType (payment-detection.ts lines 1360-1410) -/

/-- `CardTypeDetection`: the `{ cardType, confidence }` result record. -/
structure CardTypeDetection where
  cardType : List Char
  confidence : ℚ
deriving DecidableEq

/-- Regex `\d{4}`: exactly four digit characters at the head. -/
def takeDigits4 : List Char → Option (List Char × List Char)
  | a :: b :: c :: d :: rest =>
    if isDigitC a && isDigitC b && isDigitC c && isDigitC d then
      some ([a, b, c, d], rest)
    else none
  | _ => none

/-- Regex `\d{16}` at the head. -/
def take16Digits (l : List Char) : Option (List Char × List Char) :=
  let ds := (l.take 16).takeWhile isDigitC
  if ds.length = 16 then some (ds, l.drop 16) else none

/-- First alternative `\d{4}\s*\d{4}\s*\d{4}\s*\d{4}` of the card-number regex
(line 1385): four digit groups with greedy whitespace runs between them (the
classes are disjoint, so the match is deterministic). -/
def cardGroups4 (l : List Char) : Option (List Char × List Char) :=
  match takeDigits4 l with
  | none => none
  | some (g1, r1) =>
    match takeDigits4 (r1.drop (r1.takeWhile jsWs).length) with
    | none => none
    | some (g2, r2) =>
      match takeDigits4 (r2.drop (r2.takeWhile jsWs).length) with
      | none => none
      | some (g3, r3) =>
        match takeDigits4 (r3.drop (r3.takeWhile jsWs).length) with
        | none => none
        | some (g4, r4) =>
          some (g1 ++ r1.takeWhile jsWs ++ g2 ++ r2.takeWhile jsWs ++
            g3 ++ r3.takeWhile jsWs ++ g4, r4)

/-- One attempt of `/(\d{4}\s*\d{4}\s*\d{4}\s*\d{4}|\d{16})/` at a position:
the alternatives in order. -/
def cardNumAt (l : List Char) : Option (List Char × List Char) :=
  match cardGroups4 l with
  | some r => some r
  | none => take16Digits l

/-- All matches of the card-number regex with the `g` flag (non-overlapping,
left to right). Fuel as in `scanAmountsGo`: a match consumes at least one
character. -/
def scanCardNumbersGo : Nat → List Char → List (List Char)
  | _, [] => []
  | 0, _ => []
  | fuel + 1, c :: rest =>
    match cardNumAt (c :: rest) with
    | some (m, r) => m :: scanCardNumbersGo fuel r
    | none => scanCardNumbersGo fuel rest

def scanCardNumbers (l : List Char) : List (List Char) := scanCardNumbersGo l.length l

/-- The `for (const cardNumber of cardNumberMatch)` loop of
`detectCreditCardType` (lines 1387-1406): per match, strip whitespace and test
leading-digit rules in order; fall through to the next match when none hits. -/
def detectCreditCardTypeGo : List (List Char) → CardTypeDetection
  | [] => ⟨str "", 0⟩
  | m :: rest =>
    let cleanNumber := m.filter fun c => !(jsWs c)
    if startsWithL (str "4") cleanNumber then ⟨str "Visa", 4/5⟩
    else if startsWithL (str "5") cleanNumber ||
        (startsWithL (str "2") cleanNumber &&
          decide (2221 ≤ parseDigits (cleanNumber.take 4)) &&
          decide (parseDigits (cleanNumber.take 4) ≤ 2720)) then
      ⟨str "Mastercard", 4/5⟩
    else if startsWithL (str "34") cleanNumber || startsWithL (str "37") cleanNumber then
      ⟨str "American Express", 4/5⟩
    else if startsWithL (str "6") cleanNumber then ⟨str "Discover", 4/5⟩
    else detectCreditCardTypeGo rest

/-- `Extractor.detectCreditCardType` (lines 1360-1410): keyword rules at
confidence 0.9 in priority order, else card-number leading-digit rules at 0.8,
else an empty card type. -/
def detectCreditCardType (ocrText : List Char) : CardTypeDetection :=
  let lowerText := ocrText.map lowerC
  if (containsSub (str "visa") lowerText || containsSub (str "✓visa") lowerText ||
      containsSub (str "xvisa") lowerText) && !(containsSub (str "discover") lowerText) then
    ⟨str "Visa", 9/10⟩
  else if containsSub (str "master") lowerText || containsSub (str "m/c") lowerText ||
      containsSub (str "✓m/c") lowerText then ⟨str "Mastercard", 9/10⟩
  else if containsSub (str "american express") lowerText || containsSub (str "amex") lowerText ||
      containsSub (str "am exp") lowerText || containsSub (str "am/exp") lowerText ||
      containsSub (str "✓am/exp") lowerText then ⟨str "American Express", 9/10⟩
  else if containsSub (str "discover") lowerText || containsSub (str "disc") lowerText ||
      containsSub (str "✓disc") lowerText then ⟨str "Discover", 9/10⟩
  else detectCreditCardTypeGo (scanCardNumbers ocrText)

/-! ### Lemmas about card-number scanning over pure digit strings -/

theorem mem_of_containsSub {c : Char} {cs l : List Char}
    (h : containsSub (c :: cs) l = true) : c ∈ l := by
  induction l with
  | nil => simp [containsSub, List.isEmpty] at h
  | cons x r ih =>
    unfold containsSub at h
    rcases Bool.or_eq_true_iff.mp h with h1 | h1
    · unfold startsWithL at h1
      rcases Bool.and_eq_true_iff.mp h1 with ⟨he, _⟩
      exact (beq_iff_eq.mp he) ▸ List.mem_cons_self x r
    · exact List.mem_cons_of_mem x (ih h1)

theorem lowerC_digit {d : Char} (h : isDigitC d = true) : lowerC d = d := by
  have hp := of_decide_eq_true h
  unfold lowerC
  rw [if_neg (by omega)]

theorem containsSub_digits_false {p l : List Char} (hl : ∀ x ∈ l, isDigitC x = true)
    (hne : p.isEmpty = false) (hp : isDigitC p.headI = false) :
    containsSub p (l.map lowerC) = false := by
  cases p with
  | nil => simp [List.isEmpty] at hne
  | cons c cs =>
    cases h : containsSub (c :: cs) (l.map lowerC)
    · rfl
    · exfalso
      have hmem := mem_of_containsSub h
      rcases List.mem_map.mp hmem with ⟨d, hd, he⟩
      have hdd := hl d hd
      rw [lowerC_digit hdd] at he
      rw [he] at hdd
      simp only [List.headI] at hp
      rw [hp] at hdd
      exact absurd hdd (by simp)

theorem list_ge4 {l : List Char} (h : 4 ≤ l.length) :
    ∃ a b c d rest, l = a :: b :: c :: d :: rest := by
  cases l with
  | nil => simp at h
  | cons a l1 =>
    cases l1 with
    | nil => simp at h
    | cons b l2 =>
      cases l2 with
      | nil => simp at h
      | cons c l3 =>
        cases l3 with
        | nil => simp at h
        | cons d l4 => exact ⟨a, b, c, d, l4, rfl⟩

theorem takeDigits4_eq {l : List Char} (hd : ∀ x ∈ l, isDigitC x = true)
    (hlen : 4 ≤ l.length) : takeDigits4 l = some (l.take 4, l.drop 4) := by
  obtain ⟨a, b, c, d, rest, rfl⟩ := list_ge4 hlen
  show (if (isDigitC a && isDigitC b && isDigitC c && isDigitC d) = true
      then some ([a, b, c, d], rest) else (none : Option (List Char × List Char))) = _
  rw [hd a (by simp), hd b (by simp), hd c (by simp), hd d (by simp)]
  simp

theorem wsRun_nil {l : List Char} (hd : ∀ x ∈ l, isDigitC x = true) :
    l.takeWhile jsWs = [] := by
  cases l with
  | nil => rfl
  | cons a t =>
    rw [List.takeWhile_cons, digit_not_jsWs (hd a (List.mem_cons_self a t))]
    rfl

theorem cardNumAt_digits {l : List Char} (hd : ∀ x ∈ l, isDigitC x = true)
    (hlen : l.length = 16) : cardNumAt l = some (l, []) := by
  have hsub : ∀ k : Nat, ∀ x ∈ l.drop k, isDigitC x = true :=
    fun k x hx => hd x (List.mem_of_mem_drop hx)
  have t0 : takeDigits4 l = some (l.take 4, l.drop 4) := takeDigits4_eq hd (by omega)
  have t4 : takeDigits4 (l.drop 4) = some ((l.drop 4).take 4, l.drop 8) := by
    have h := takeDigits4_eq (hsub 4) (by rw [List.length_drop]; omega)
    rwa [List.drop_drop, show (4 + 4 : Nat) = 8 from rfl] at h
  have t8 : takeDigits4 (l.drop 8) = some ((l.drop 8).take 4, l.drop 12) := by
    have h := takeDigits4_eq (hsub 8) (by rw [List.length_drop]; omega)
    rwa [List.drop_drop, show (8 + 4 : Nat) = 12 from rfl] at h
  have t12 : takeDigits4 (l.drop 12) = some ((l.drop 12).take 4, l.drop 16) := by
    have h := takeDigits4_eq (hsub 12) (by rw [List.length_drop]; omega)
    rwa [List.drop_drop, show (12 + 4 : Nat) = 16 from rfl] at h
  have hnil : l.drop 16 = [] := by
    apply List.drop_eq_nil_of_le
    omega
  have w4 : (l.drop 4).takeWhile jsWs = [] := wsRun_nil (hsub 4)
  have w8 : (l.drop 8).takeWhile jsWs = [] := wsRun_nil (hsub 8)
  have w12 : (l.drop 12).takeWhile jsWs = [] := wsRun_nil (hsub 12)
  have e12 : (l.drop 12).take 4 = l.drop 12 := by
    have hl12 : (l.drop 12).length = 4 := by rw [List.length_drop]; omega
    rw [← hl12]
    exact List.take_length _
  have e8 : (l.drop 8).take 4 ++ l.drop 12 = l.drop 8 := by
    have h := List.take_append_drop 4 (l.drop 8)
    rwa [List.drop_drop, show (8 + 4 : Nat) = 12 from rfl] at h
  have e4 : (l.drop 4).take 4 ++ l.drop 8 = l.drop 4 := by
    have h := List.take_append_drop 4 (l.drop 4)
    rwa [List.drop_drop, show (4 + 4 : Nat) = 8 from rfl] at h
  have e0 : l.take 4 ++ l.drop 4 = l := List.take_append_drop 4 l
  unfold cardNumAt cardGroups4
  simp only [t0, w4, List.length_nil, List.drop_zero, t4, w8, t8, w12, t12, hnil,
    List.append_nil]
  rw [e12, List.append_assoc, List.append_assoc, e8, e4, e0]

theorem scanCardNumbers_digits {l : List Char} (hd : ∀ x ∈ l, isDigitC x = true)
    (hlen : l.length = 16) : scanCardNumbers l = [l] := by
  have hge : 4 ≤ l.length := by omega
  obtain ⟨a, b, c, d, rest, rfl⟩ := list_ge4 hge
  unfold scanCardNumbers
  rw [hlen, show (16 : Nat) = 15 + 1 from rfl]
  show scanCardNumbersGo (15 + 1) (a :: b :: c :: d :: rest) = _
  rw [show scanCardNumbersGo (15 + 1) (a :: b :: c :: d :: rest) =
      (match cardNumAt (a :: b :: c :: d :: rest) with
       | some (m, r) => m :: scanCardNumbersGo 15 r
       | none => scanCardNumbersGo 15 (b :: c :: d :: rest)) from rfl]
  rw [cardNumAt_digits hd hlen]
  rfl

theorem filter_not_ws_digits {l : List Char} (hd : ∀ x ∈ l, isDigitC x = true) :
    (l.filter fun c => !(jsWs c)) = l :=
  List.filter_eq_self.mpr fun c hc => by rw [digit_not_jsWs (hd c hc)]; rfl

theorem detectCreditCardType_digits {l : List Char} (hd : ∀ x ∈ l, isDigitC x = true)
    (hlen : l.length = 16) :
    detectCreditCardType l = detectCreditCardTypeGo [l] := by
  have k01 := containsSub_digits_false (p := str "visa") hd (by decide) (by decide)
  have k02 := containsSub_digits_false (p := str "✓visa") hd (by decide) (by decide)
  have k03 := containsSub_digits_false (p := str "xvisa") hd (by decide) (by decide)
  have k04 := containsSub_digits_false (p := str "discover") hd (by decide) (by decide)
  have k05 := containsSub_digits_false (p := str "master") hd (by decide) (by decide)
  have k06 := containsSub_digits_false (p := str "m/c") hd (by decide) (by decide)
  have k07 := containsSub_digits_false (p := str "✓m/c") hd (by decide) (by decide)
  have k08 := containsSub_digits_false (p := str "american express") hd (by decide) (by decide)
  have k09 := containsSub_digits_false (p := str "amex") hd (by decide) (by decide)
  have k10 := containsSub_digits_false (p := str "am exp") hd (by decide) (by decide)
  have k11 := containsSub_digits_false (p := str "am/exp") hd (by decide) (by decide)
  have k12 := containsSub_digits_false (p := str "✓am/exp") hd (by decide) (by decide)
  have k13 := containsSub_digits_false (p := str "disc") hd (by decide) (by decide)
  have k14 := containsSub_digits_false (p := str "✓disc") hd (by decide) (by decide)
  unfold detectCreditCardType
  simp only [k01, k02, k03, k04, k05, k06, k07, k08, k09, k10, k11, k12, k13, k14,
    Bool.or_self, Bool.or_false, Bool.false_or, Bool.false_and, Bool.and_false,
    Bool.not_false, Bool.and_true, Bool.false_eq_true, if_false]
  rw [scanCardNumbers_digits hd hlen]

/-! ## Claim theorems: C4 -/

/-- C4 counterexample: for the 16-digit number 5600000000000000 the shared
utility `detectCardType` answers `'Unknown'` (the Mastercard pattern demands
`5[1-5]`), while the Extractor's `detectCreditCardType` answers `Mastercard`
(its rule is any leading `5`), so the two rule tables are not identical. -/
theorem C4_counterexample_56 :
    detectCardType (str "5600000000000000") = str "Unknown" ∧
    (detectCreditCardType (str "5600000000000000")).cardType = str "Mastercard" := by
  constructor
  · decide
  · decide

/-- C4 (amended): the two leading-digit rule tables agree only on a common
core -- leading 4 (Visa), leading 5 with second digit 1-5 (Mastercard),
leading 34/37 (American Express), and leading 2 with first four digits in
2221-2720 (Mastercard); outside that core they disagree (see the 56-prefix
counterexample), so they are not one identical table. -/
theorem C4_card_type_agreement (a b c d : Char) (rest : List Char)
    (hlen : (a :: b :: c :: d :: rest).length = 16)
    (hd : ∀ x ∈ a :: b :: c :: d :: rest, isDigitC x = true) :
    (a = '4' →
      detectCardType (a :: b :: c :: d :: rest) = str "Visa" ∧
      (detectCreditCardType (a :: b :: c :: d :: rest)).cardType = str "Visa")
    ∧ (a = '5' → between '1' '5' b = true →
      detectCardType (a :: b :: c :: d :: rest) = str "Mastercard" ∧
      (detectCreditCardType (a :: b :: c :: d :: rest)).cardType = str "Mastercard")
    ∧ (a = '3' → (b = '4' ∨ b = '7') →
      detectCardType (a :: b :: c :: d :: rest) = str "American Express" ∧
      (detectCreditCardType (a :: b :: c :: d :: rest)).cardType = str "American Express")
    ∧ (a = '2' → 2221 ≤ parseDigits [a, b, c, d] → parseDigits [a, b, c, d] ≤ 2720 →
      detectCardType (a :: b :: c :: d :: rest) = str "Mastercard" ∧
      (detectCreditCardType (a :: b :: c :: d :: rest)).cardType = str "Mastercard") := by
  have hcl : cleanDigits (a :: b :: c :: d :: rest) = a :: b :: c :: d :: rest :=
    cleanDigits_eq_self hd
  have hgo := detectCreditCardType_digits hd hlen
  have hfl : ((a :: b :: c :: d :: rest).filter fun c => !(jsWs c)) = a :: b :: c :: d :: rest :=
    filter_not_ws_digits hd
  refine ⟨?_, ?_, ?_, ?_⟩
  · rintro rfl
    have hv : visaPat ('4' :: b :: c :: d :: rest) = true := by
      show startsWithL (str "4") ('4' :: b :: c :: d :: rest) = true
      rw [show str "4" = ['4'] from rfl]
      simp [startsWithL]
    constructor
    · simp only [detectCardType, CARD_TYPES, List.find?, hcl, hv]
    · rw [hgo]
      simp only [detectCreditCardTypeGo, hfl, hv]
      rfl
  · rintro rfl hb
    have hv : startsWithL (str "4") ('5' :: b :: c :: d :: rest) = false := by
      rw [show str "4" = ['4'] from rfl]
      simp [startsWithL]
    have hm : mastercardPat ('5' :: b :: c :: d :: rest) = true := by
      simp [mastercardPat, hb]
    have h5 : startsWithL (str "5") ('5' :: b :: c :: d :: rest) = true := by
      rw [show str "5" = ['5'] from rfl]
      simp [startsWithL]
    constructor
    · simp only [detectCardType, CARD_TYPES, List.find?, hcl, hv, hm]
      rfl
    · rw [hgo]
      simp only [detectCreditCardTypeGo, hfl, hv, h5, Bool.true_or]
      rfl
  · rintro rfl hb
    have hv : startsWithL (str "4") ('3' :: b :: c :: d :: rest) = false := by
      rw [show str "4" = ['4'] from rfl]
      simp [startsWithL]
    have hm : mastercardPat ('3' :: b :: c :: d :: rest) = false := by
      simp [mastercardPat]
    have hax : amexPat ('3' :: b :: c :: d :: rest) = true := by
      rcases hb with rfl | rfl <;> simp [amexPat]
    have h5 : startsWithL (str "5") ('3' :: b :: c :: d :: rest) = false := by
      rw [show str "5" = ['5'] from rfl]
      simp [startsWithL]
    have h2 : startsWithL (str "2") ('3' :: b :: c :: d :: rest) = false := by
      rw [show str "2" = ['2'] from rfl]
      simp [startsWithL]
    have h34 : (startsWithL (str "34") ('3' :: b :: c :: d :: rest) ||
        startsWithL (str "37") ('3' :: b :: c :: d :: rest)) = true := by
      rw [show str "34" = ['3', '4'] from rfl, show str "37" = ['3', '7'] from rfl]
      rcases hb with rfl | rfl <;> simp [startsWithL]
    constructor
    · simp only [detectCardType, CARD_TYPES, List.find?, hcl, hv, hm, hax]
      rfl
    · rw [hgo]
      simp only [detectCreditCardTypeGo, hfl, hv, h5, h2, h34, Bool.false_or,
        Bool.false_and, if_false]
      rfl
  · rintro rfl hlo hhi
    have hdigb := of_decide_eq_true (hd b (by simp))
    have hdigc := of_decide_eq_true (hd c (by simp))
    have hdigd := of_decide_eq_true (hd d (by simp))
    have hpar : parseDigits ['2', b, c, d] =
        (((0 * 10 + chVal '2') * 10 + chVal b) * 10 + chVal c) * 10 + chVal d := rfl
    have hcb : chVal b = b.toNat - 48 := rfl
    have hcc : chVal c = c.toNat - 48 := rfl
    have hcd : chVal d = d.toNat - 48 := rfl
    have hc2 : chVal '2' = 2 := rfl
    rw [hpar, hc2, hcb, hcc, hcd] at hlo hhi
    have hb27 : between '2' '7' b = true := by
      apply decide_eq_true
      have e2 : ('2' : Char).toNat = 50 := rfl
      have e7 : ('7' : Char).toNat = 55 := rfl
      rw [e2, e7]
      omega
    have hv : startsWithL (str "4") ('2' :: b :: c :: d :: rest) = false := by
      rw [show str "4" = ['4'] from rfl]
      simp [startsWithL]
    have hm : mastercardPat ('2' :: b :: c :: d :: rest) = true := by
      simp [mastercardPat, hb27]
    have h5 : startsWithL (str "5") ('2' :: b :: c :: d :: rest) = false := by
      rw [show str "5" = ['5'] from rfl]
      simp [startsWithL]
    have h2s : startsWithL (str "2") ('2' :: b :: c :: d :: rest) = true := by
      rw [show str "2" = ['2'] from rfl]
      simp [startsWithL]
    have htk : (('2' :: b :: c :: d :: rest).take 4) = ['2', b, c, d] := rfl
    have hdlo : decide (2221 ≤ parseDigits (('2' :: b :: c :: d :: rest).take 4)) = true := by
      apply decide_eq_true
      rw [htk, hpar, hc2, hcb, hcc, hcd]
      omega
    have hdhi : decide (parseDigits (('2' :: b :: c :: d :: rest).take 4) ≤ 2720) = true := by
      apply decide_eq_true
      rw [htk, hpar, hc2, hcb, hcc, hcd]
      omega
    constructor
    · simp only [detectCardType, CARD_TYPES, List.find?, hcl, hv, hm]
      rfl
    · rw [hgo]
      simp only [detectCreditCardTypeGo, hfl, hv, h5, h2s, hdlo, hdhi, Bool.true_and,
        Bool.and_true, Bool.false_or, Bool.or_true]
      rfl

/-- Witness for C4 at the all-ones Visa number. -/
theorem C4_card_type_agreement_witness :
    detectCardType (str "4111111111111111") = str "Visa" ∧
    (detectCreditCardType (str "4111111111111111")).cardType = str "Visa" := by
  have h := (C4_card_type_agreement '4' '1' '1' '1' (str "111111111111")
    (by decide) (by decide)).1 rfl
  rw [show str "4111111111111111" = '4' :: '1' :: '1' :: '1' :: str "111111111111" from by decide]
  exact h

/-! ## Detector.calculateFormConfidence (detector.ts lines 625-647) -/

/-- The five element/field types shared by `DetectedElement.type` (detector.ts)
and `FieldSegment.fieldType` (the extractor's input). -/
inductive FieldType
  | text_field
  | checkbox
  | signature_area
  | amount_field
  | date_field
deriving DecidableEq

/-- `DetectedElement`, reduced to the fields `calculateFormConfidence` reads:
type, confidence and the optional OCR-assigned label. -/
structure DetectedElement where
  etype : FieldType
  confidence : ℚ
  label : Option (List Char)
deriving DecidableEq

/-- `Detector.calculateFormConfidence` (detector.ts lines 625-647): 0 for no
elements; otherwise the mean element confidence, boosted by +0.15 (capped at
1.0) when some label includes `'name'` and some label includes `'amount'`
(`e.label?.includes(...)`, false for a missing label), and boosted by a
further +0.1 (capped at 1.0) when at least 3 distinct element types occur. -/
def calculateFormConfidence (elements : List DetectedElement) : ℚ :=
  if elements.length = 0 then 0
  else
    let totalConfidence := elements.foldl (fun sum e => sum + e.confidence) 0
    let averageConfidence := totalConfidence / (elements.length : ℚ)
    let hasKeyElements :=
      (elements.any fun e => (e.label.map (containsSub (str "name"))).getD false) &&
      (elements.any fun e => (e.label.map (containsSub (str "amount"))).getD false)
    let boosted :=
      if hasKeyElements then min (averageConfidence + 15/100) 1 else averageConfidence
    let elementTypes := (elements.map fun e => e.etype).dedup
    if 3 ≤ elementTypes.length then min (boosted + 1/10) 1 else boosted

/-- Spec-side formulation of the form-level confidence: the mean of the
element confidences (as `List.sum` over the mapped list), the same two boosts,
and the distinct-type count as the cardinality of the finite set of types. -/
def formConfidenceSpec (elements : List DetectedElement) : ℚ :=
  if elements = [] then 0
  else
    let mean := (elements.map fun e => e.confidence).sum / (elements.length : ℚ)
    let withKey :=
      if (elements.any fun e => (e.label.map (containsSub (str "name"))).getD false) &&
         (elements.any fun e => (e.label.map (containsSub (str "amount"))).getD false)
      then min (mean + 15/100) 1 else mean
    if 3 ≤ (elements.map fun e => e.etype).toFinset.card then min (withKey + 1/10) 1
    else withKey

theorem foldl_add_conf (l : List DetectedElement) :
    ∀ init : ℚ, l.foldl (fun sum e => sum + e.confidence) init =
      init + (l.map fun e => e.confidence).sum := by
  induction l with
  | nil => intro init; simp
  | cons a t ih =>
    intro init
    simp only [List.foldl_cons, List.map_cons, List.sum_cons, ih (init + a.confidence)]
    ring

/-! ## Claim theorems: C8 -/

/-- C8: the Detector's form-level confidence is the mean of the element
confidences with the two capped boosts of the spec (0 for no elements), and
when every element confidence is at most 1 the result never exceeds 1. -/
theorem C8_calculateFormConfidence :
    (∀ elements, calculateFormConfidence elements = formConfidenceSpec elements)
    ∧ calculateFormConfidence [] = 0
    ∧ (∀ elements, (∀ e ∈ elements, e.confidence ≤ 1) →
        calculateFormConfidence elements ≤ 1) := by
  refine ⟨fun elements => ?_, rfl, fun elements hb => ?_⟩
  · by_cases he : elements = []
    · subst he; rfl
    · have hlen : ¬ (elements.length = 0) := fun h => he (List.length_eq_zero.mp h)
      have hf := foldl_add_conf elements 0
      rw [zero_add] at hf
      simp only [calculateFormConfidence, formConfidenceSpec, if_neg hlen, if_neg he, hf,
        List.card_toFinset]
  · by_cases he : elements = []
    · subst he
      rw [show calculateFormConfidence [] = 0 from rfl]
      norm_num
    · have hlen : ¬ (elements.length = 0) := fun h => he (List.length_eq_zero.mp h)
      have hpos : (0 : ℚ) < (elements.length : ℚ) := by
        exact_mod_cast Nat.pos_of_ne_zero hlen
      have hmean : elements.foldl (fun sum e => sum + e.confidence) 0 /
          (elements.length : ℚ) ≤ 1 := by
        have hf := foldl_add_conf elements 0
        rw [zero_add] at hf
        rw [hf, div_le_one hpos]
        calc (elements.map fun e => e.confidence).sum
            ≤ (elements.map fun e => e.confidence).length • (1 : ℚ) := by
              apply List.sum_le_card_nsmul
              intro x hx
              rcases List.mem_map.mp hx with ⟨e, he', rfl⟩
              exact hb e he'
          _ = (elements.length : ℚ) := by simp [nsmul_eq_mul]
      simp only [calculateFormConfidence, if_neg hlen]
      by_cases h3 : 3 ≤ ((elements.map fun e => e.etype).dedup).length
      · rw [if_pos h3]
        exact min_le_right _ _
      · rw [if_neg h3]
        by_cases hkey :
            ((elements.any fun e => (e.label.map (containsSub (str "name"))).getD false) &&
             (elements.any fun e => (e.label.map (containsSub (str "amount"))).getD false)) = true
        · rw [if_pos hkey]
          exact min_le_right _ _
        · rw [if_neg hkey]
          exact hmean

/-! ## Preprocessor (payment-detection.ts part: Preprocessor class, lines 513-773)

Buffers are abstract (`β`); the Jimp/pdf2pic collaborators are explicit
parameters. Each enhancement primitive (`deskewImage`, `optimizeContrast`,
`reduceNoise`, `standardizeResolution`) and `getImageSize` is a fallible call
into the image library, modelled as `Except`. -/

/-- `ProcessedImage` (lines 487-492). -/
structure ProcessedImage (β : Type) where
  imageBuffer : β
  width : Nat
  height : Nat
  pageNumber : Nat
deriving DecidableEq

/-- The collaborator surface `enhanceImage` calls into, in source order. -/
structure EnhanceSteps (β : Type) where
  deskewImage : β → Except (List Char) β
  optimizeContrast : β → Except (List Char) β
  reduceNoise : β → Except (List Char) β
  standardizeResolution : β → Except (List Char) β
  getImageSize : β → Except (List Char) (Nat × Nat)

/-- `Preprocessor.enhanceImage` (lines 568-597): the four steps then
`getImageSize`, all inside one try block whose catch returns the input image
unchanged. -/
def enhanceImage {β : Type} (steps : EnhanceSteps β) (image : ProcessedImage β) :
    ProcessedImage β :=
  match steps.deskewImage image.imageBuffer with
  | .error _ => image
  | .ok b1 =>
    match steps.optimizeContrast b1 with
    | .error _ => image
    | .ok b2 =>
      match steps.reduceNoise b2 with
      | .error _ => image
      | .ok b3 =>
        match steps.standardizeResolution b3 with
        | .error _ => image
        | .ok b4 =>
          match steps.getImageSize b4 with
          | .error _ => image
          | .ok (w, h) => { image with imageBuffer := b4, width := w, height := h }

/-- The typed failures of `processDocument`: the explicit
`Unsupported file type` throw (line 542), and a collaborator error from
decoding the single input image, both rethrown by the outer catch. -/
inductive PreprocessFailure
  | unsupportedFileType (mimeType : List Char)
  | decodeFailed (msg : List Char)
deriving DecidableEq

/-- `RawDocument` / `DocumentData` (lines 481-485). -/
structure RawDocument (β : Type) where
  fileName : List Char
  fileBuffer : β
  mimeType : List Char

/-- `convertPdfToImages` (lines 606-652): the rasterization collaborator is
summarized by the list of pages it yields before its first failure (the loop
converts pages until an error or missing path, which only ends the loop);
the loop numbers them 1, 2, ... in order. -/
def convertPdfToImages {β : Type} (pages : List (β × Nat × Nat)) :
    List (ProcessedImage β) :=
  pages.enum.map fun p => ⟨p.2.1, p.2.2.1, p.2.2.2, p.1 + 1⟩

/-- `Preprocessor.processDocument` (lines 529-559): PDF MIME type goes through
PDF conversion, `image/*` wraps the single decoded image as page 1, anything
else throws `Unsupported file type`; every page is then enhanced
(order-preserving `Promise.all` map). -/
def processDocument {β : Type} (steps : EnhanceSteps β) (pdfPages : List (β × Nat × Nat))
    (imageDecode : β → Except (List Char) (Nat × Nat)) (doc : RawDocument β) :
    Except PreprocessFailure (List (ProcessedImage β)) :=
  if doc.mimeType = str "application/pdf" then
    .ok ((convertPdfToImages pdfPages).map (enhanceImage steps))
  else if startsWithL (str "image/") doc.mimeType then
    match imageDecode doc.fileBuffer with
    | .ok (w, h) =>
      .ok ([({ imageBuffer := doc.fileBuffer, width := w, height := h, pageNumber := 1 } :
        ProcessedImage β)].map (enhanceImage steps))
    | .error e => .error (.decodeFailed e)
  else .error (.unsupportedFileType doc.mimeType)

theorem enhanceImage_pageNumber {β : Type} (steps : EnhanceSteps β)
    (image : ProcessedImage β) :
    (enhanceImage steps image).pageNumber = image.pageNumber := by
  cases h1 : steps.deskewImage image.imageBuffer with
  | error e => simp only [enhanceImage, h1]
  | ok b1 =>
    cases h2 : steps.optimizeContrast b1 with
    | error e => simp only [enhanceImage, h1, h2]
    | ok b2 =>
      cases h3 : steps.reduceNoise b2 with
      | error e => simp only [enhanceImage, h1, h2, h3]
      | ok b3 =>
        cases h4 : steps.standardizeResolution b3 with
        | error e => simp only [enhanceImage, h1, h2, h3, h4]
        | ok b4 =>
          cases h5 : steps.getImageSize b4 with
          | error e => simp only [enhanceImage, h1, h2, h3, h4, h5]
          | ok wh => cases wh with | mk w h => simp only [enhanceImage, h1, h2, h3, h4, h5]

theorem convertPdf_pageNumbers {β : Type} (steps : EnhanceSteps β)
    (pages : List (β × Nat × Nat)) :
    (((convertPdfToImages pages).map (enhanceImage steps)).map fun i => i.pageNumber) =
      List.range' 1 pages.length := by
  unfold convertPdfToImages
  rw [List.map_map, List.map_map]
  rw [List.map_congr_left (g := fun p : Nat × (β × Nat × Nat) => p.1 + 1)
    (fun p _ => by
      show (enhanceImage steps _).pageNumber = p.1 + 1
      rw [enhanceImage_pageNumber])]
  have h1 : (fun p : Nat × (β × Nat × Nat) => p.1 + 1) = ((fun n => n + 1) ∘ Prod.fst) := rfl
  rw [h1, ← List.map_map, List.enum_map_fst]
  rw [List.range'_eq_map_range]
  apply List.map_congr_left
  intro n _
  omega

/-! ## Claim theorems: C6, C7 -/

/-- C6: `processDocument` fails with the unsupported-file-type error exactly
for MIME types that are neither `application/pdf` nor `image/*`; a PDF yields
the ordered page list 1..n, a decodable image yields the single page 1, and a
supported MIME type never produces the unsupported-format failure. -/
theorem C6_processDocument_mime {β : Type} (steps : EnhanceSteps β)
    (pdfPages : List (β × Nat × Nat)) (imageDecode : β → Except (List Char) (Nat × Nat))
    (doc : RawDocument β) :
    ((doc.mimeType ≠ str "application/pdf" ∧
        startsWithL (str "image/") doc.mimeType = false) →
      processDocument steps pdfPages imageDecode doc =
        .error (.unsupportedFileType doc.mimeType))
    ∧ (doc.mimeType = str "application/pdf" →
      ∃ imgs, processDocument steps pdfPages imageDecode doc = .ok imgs ∧
        (imgs.map fun i => i.pageNumber) = List.range' 1 pdfPages.length)
    ∧ (startsWithL (str "image/") doc.mimeType = true →
      (∀ m, processDocument steps pdfPages imageDecode doc ≠
        .error (.unsupportedFileType m))
      ∧ ∀ w h, imageDecode doc.fileBuffer = .ok (w, h) →
        ∃ imgs, processDocument steps pdfPages imageDecode doc = .ok imgs ∧
          (imgs.map fun i => i.pageNumber) = [1]) := by
  refine ⟨fun ⟨h1, h2⟩ => ?_, fun hpdf => ?_, fun himg => ⟨fun m => ?_, fun w h hdec => ?_⟩⟩
  · unfold processDocument
    rw [if_neg h1, if_neg (by simp [h2])]
  · unfold processDocument
    rw [if_pos hpdf]
    exact ⟨_, rfl, convertPdf_pageNumbers steps pdfPages⟩
  · unfold processDocument
    by_cases hpdf : doc.mimeType = str "application/pdf"
    · rw [if_pos hpdf]
      simp
    · rw [if_neg hpdf, if_pos himg]
      cases hdec : imageDecode doc.fileBuffer with
      | ok wh => cases wh with | mk w h => simp
      | error e => simp
  · by_cases hpdf : doc.mimeType = str "application/pdf"
    · rw [hpdf] at himg
      exact absurd himg (by decide)
    · unfold processDocument
      rw [if_neg hpdf, if_pos himg, hdec]
      refine ⟨_, rfl, ?_⟩
      simp only [List.map_cons, List.map_nil, enhanceImage_pageNumber]

/-- Concrete enhancement collaborators where deskew succeeds (changing the
buffer) and contrast fails: the code's catch returns the original input, not
the deskewed pre-step image. -/
def c7Steps : EnhanceSteps Nat where
  deskewImage := fun b => .ok (b + 1)
  optimizeContrast := fun _ => .error (str "contrast failed")
  reduceNoise := fun b => .ok b
  standardizeResolution := fun b => .ok b
  getImageSize := fun _ => .ok (2480, 3508)

/-- C7 counterexample: with deskew succeeding (buffer 0 becomes 1) and the
contrast step failing, `enhanceImage` returns the original image with buffer
0 -- not the pre-step (deskewed) image with buffer 1 that the claim
prescribes. -/
theorem C7_counterexample_pre_step :
    enhanceImage c7Steps ⟨0, 100, 200, 1⟩ = ⟨0, 100, 200, 1⟩ ∧
    enhanceImage c7Steps ⟨0, 100, 200, 1⟩ ≠ ⟨1, 100, 200, 1⟩ := by
  constructor
  · rfl
  · decide

/-- C7 (amended): the four enhancement steps run in the fixed order deskew,
contrast, noise reduction, resolution standardization; when every step (and
the final size read) succeeds the image carries the final buffer, and
otherwise the whole enhancement returns the original input image unchanged --
in particular a failing step discards the earlier steps' work rather than
yielding the pre-step image, and the page is never lost. -/
theorem C7_enhanceImage_order_failure {β : Type} (steps : EnhanceSteps β)
    (image : ProcessedImage β) :
    ((∃ b1 b2 b3 b4 w h,
      steps.deskewImage image.imageBuffer = .ok b1 ∧
      steps.optimizeContrast b1 = .ok b2 ∧
      steps.reduceNoise b2 = .ok b3 ∧
      steps.standardizeResolution b3 = .ok b4 ∧
      steps.getImageSize b4 = .ok (w, h) ∧
      enhanceImage steps image = { image with imageBuffer := b4, width := w, height := h })
    ∨ enhanceImage steps image = image)
    ∧ (∀ b1 e, steps.deskewImage image.imageBuffer = .ok b1 →
        steps.optimizeContrast b1 = .error e → enhanceImage steps image = image) := by
  constructor
  · cases h1 : steps.deskewImage image.imageBuffer with
    | error e => right; simp only [enhanceImage, h1]
    | ok b1 =>
      cases h2 : steps.optimizeContrast b1 with
      | error e => right; simp only [enhanceImage, h1, h2]
      | ok b2 =>
        cases h3 : steps.reduceNoise b2 with
        | error e => right; simp only [enhanceImage, h1, h2, h3]
        | ok b3 =>
          cases h4 : steps.standardizeResolution b3 with
          | error e => right; simp only [enhanceImage, h1, h2, h3, h4]
          | ok b4 =>
            cases h5 : steps.getImageSize b4 with
            | error e => right; simp only [enhanceImage, h1, h2, h3, h4, h5]
            | ok wh =>
              cases wh with
              | mk w h =>
                left
                exact ⟨b1, b2, b3, b4, w, h, rfl, h2, h3, h4, h5, by
                  simp only [enhanceImage, h1, h2, h3, h4, h5]⟩
  · intro b1 e hb he
    simp only [enhanceImage, hb, he]

/-! ## Extractor.extractDate (payment-detection.ts lines 1281-1290)

Regex `/Date[:\s]*(\d{1,2})[\/\-](\d{1,2})[\/\-](\d{4})/i`; the FIRST captured
component is assigned to `day`, the SECOND to `month`, and the result is
`year-month-day`. -/

/-- `(\d{1,2})[\/\-]`: one or two digits (greedy, backtracking to one) followed
by a slash or dash; returns the digit component and the text after the
separator. -/
def dateComp : List Char → Option (List Char × List Char)
  | a :: b :: s :: r =>
    if isDigitC a && isDigitC b && (s == '/' || s == '-') then some ([a, b], r)
    else if isDigitC a && (b == '/' || b == '-') then some ([a], s :: r)
    else none
  | a :: b :: r =>
    if isDigitC a && (b == '/' || b == '-') then some ([a], r)
    else none
  | _ => none

/-- `(\d{4})`: exactly four digits (trailing text unconstrained). -/
def fourDigits : List Char → Option (List Char)
  | a :: b :: c :: d :: _ =>
    if isDigitC a && isDigitC b && isDigitC c && isDigitC d then some [a, b, c, d] else none
  | _ => none

/-- JavaScript `padStart(2, '0')`. -/
def padStart2 (l : List Char) : List Char := List.replicate (2 - l.length) '0' ++ l

/-- One attempt of the date regex at a position: `Date` (case-insensitive),
`[:\s]*` (greedy; the classes that follow are disjoint from it), the two
components, the year. The match result is already normalized as the source
does: `year-month-day` with `day` the FIRST component. -/
def tryDateAt (l : List Char) : Option (List Char) :=
  match dropCI (str "date") l with
  | none => none
  | some r0 =>
    match dateComp (r0.dropWhile colonWs) with
    | none => none
    | some (dayComp, r1) =>
      match dateComp r1 with
      | none => none
      | some (monthComp, r2) =>
        match fourDigits r2 with
        | none => none
        | some year =>
          some (year ++ ('-' :: padStart2 monthComp) ++ ('-' :: padStart2 dayComp))

/-- `Extractor.extractDate` (lines 1281-1290). -/
def extractDate (text : List Char) : Option (List Char) := scanFirst tryDateAt text

theorem digit_not_colonWs {c : Char} (h : isDigitC c = true) : colonWs c = false := by
  unfold colonWs
  rw [digit_not_jsWs h]
  have hne : c ≠ ':' := fun he => by subst he; exact absurd h (by decide)
  simp [hne]

theorem scanFirst_cons_some {α : Type} {f : List Char → Option α} {c : Char}
    {rest : List Char} {v : α} (h : f (c :: rest) = some v) :
    scanFirst f (c :: rest) = some v := by
  unfold scanFirst
  rw [h]
  rfl

theorem scanFirst_some {α : Type} {f : List Char → Option α} {t : List Char} {v : α}
    (h : scanFirst f t = some v) : ∃ l, f l = some v := by
  induction t with
  | nil => exact ⟨[], h⟩
  | cons c rest ih =>
    unfold scanFirst at h
    cases hf : f (c :: rest) with
    | some w =>
      rw [hf] at h
      exact ⟨c :: rest, hf.trans h⟩
    | none =>
      rw [hf] at h
      exact ih h

theorem fourDigits_shape {r : List Char} {y : List Char} (h : fourDigits r = some y) :
    ∃ a b c d, y = [a, b, c, d] := by
  unfold fourDigits at h
  split at h
  · split at h
    · exact ⟨_, _, _, _, (Option.some.inj h).symm⟩
    · exact absurd h (by simp)
  · exact absurd h (by simp)

theorem tryDateAt_ne_nil {l : List Char} {D : List Char} (h : tryDateAt l = some D) :
    D ≠ [] := by
  unfold tryDateAt at h
  split at h
  · exact absurd h (by simp)
  · split at h
    · exact absurd h (by simp)
    · split at h
      · exact absurd h (by simp)
      · split at h
        · exact absurd h (by simp)
        · rename_i year hy
          obtain ⟨a, b, c, d, rfl⟩ := fourDigits_shape hy
          intro hnil
          rw [← Option.some.inj h] at hnil
          simp at hnil

theorem extractDate_ne_nil {t D : List Char} (h : extractDate t = some D) : D ≠ [] := by
  obtain ⟨l, hl⟩ := scanFirst_some h
  exact tryDateAt_ne_nil hl

/-! ## Extractor field records and the field-segment path
(payment-detection.ts lines 777-831, 1047-1155) -/

/-- `paymentDetails` as both extraction paths initialize it: all-empty
strings. -/
structure PaymentDetails where
  cardType : List Char
  cardNumber : List Char
  expiryDate : List Char
  cvv : List Char
  cardholderName : List Char
deriving DecidableEq

/-- `ExtractedFormData.fields` (lines 804-821). -/
structure FormFields where
  donorName : List Char
  email : List Char
  phone : List Char
  address : List Char
  amount : Nat
  paymentMethod : List Char
  paymentDetails : PaymentDetails
  date : List Char
  recurring : Bool
  anonymous : Bool
deriving DecidableEq

def emptyPaymentDetails : PaymentDetails := ⟨[], [], [], [], []⟩

/-- The `fields` initializer both paths share (lines 1050-1067, 1167-1184). -/
def emptyFields : FormFields := ⟨[], [], [], [], 0, [], emptyPaymentDetails, [], false, false⟩

/-- `ExtractedFormData` (lines 801-823). -/
structure ExtractedFormData where
  formNumber : Nat
  confidence : ℚ
  fields : FormFields
  issues : List (List Char)
deriving DecidableEq

/-- `Extractor.isValidEmail` (lines 1444-1447), regex
`/^[^\s@]+@[^\s@]+\.[^\s@]+$/`: a non-empty run of non-space-non-`@`
characters, an `@`, and a remainder made of such characters containing a dot
that is neither its first nor its last character (the backtracking over the
greedy middle part reduces to exactly that condition). -/
def isValidEmail (email : List Char) : Bool :=
  let cls := fun c => !(jsWs c) && !(c == '@')
  let localPart := email.takeWhile cls
  if localPart.isEmpty then false
  else
    match email.drop localPart.length with
    | '@' :: r => r.all cls && ((r.drop 1).dropLast.any fun c => c == '.')
    | _ => false

/-- The enum value's string form, as interpolated into issue messages. -/
def fieldTypeName : FieldType → List Char
  | .text_field => str "text_field"
  | .checkbox => str "checkbox"
  | .signature_area => str "signature_area"
  | .amount_field => str "amount_field"
  | .date_field => str "date_field"

/-- `Extractor.processFieldSegment` (lines 1105-1155): route the recognized
(already trimmed) text by field type; `fieldId` substring match decides the
text-field target; a failed email check appends an issue without clearing the
field; an amount is stored only when positive; a date only when matched and
non-empty; `monthly`/`recurring` set the recurring flag; non-blank signature
text becomes the cardholder name. -/
def processFieldSegment (fieldType : FieldType) (fieldId : List Char) (text : List Char)
    (fields : FormFields) (issues : List (List Char)) : FormFields × List (List Char) :=
  match fieldType with
  | .text_field =>
    if containsSub (str "name") (fieldId.map lowerC) then
      ({ fields with donorName := text }, issues)
    else if containsSub (str "email") (fieldId.map lowerC) then
      ({ fields with email := text },
        if isValidEmail text then issues
        else issues ++ [str "Email format appears incorrect"])
    else if containsSub (str "phone") (fieldId.map lowerC) then
      ({ fields with phone := text }, issues)
    else if containsSub (str "address") (fieldId.map lowerC) then
      ({ fields with address := text }, issues)
    else (fields, issues)
  | .amount_field =>
    let amount := extractAmount text
    (if amount > 0 then { fields with amount := amount } else fields, issues)
  | .date_field =>
    match extractDate text with
    | some date => (if date.isEmpty then fields else { fields with date := date }, issues)
    | none => (fields, issues)
  | .checkbox =>
    (if containsSub (str "monthly") (text.map lowerC) ||
        containsSub (str "recurring") (text.map lowerC) then
      { fields with recurring := true }
    else fields, issues)
  | .signature_area =>
    (if (jsTrim text).isEmpty then fields
     else { fields with
        paymentDetails := { fields.paymentDetails with cardholderName := text } },
     issues)

/-- A field segment together with its OCR collaborator outcome:
`some (text, confidence)` models a successful `performFullImageOCR`, `none`
models the call throwing (caught per segment, lines 1086-1089). -/
structure FieldSegmentOCR where
  fieldType : FieldType
  fieldId : List Char
  ocr : Option (List Char × ℚ)

/-- The per-segment loop of `extractFromFieldSegments` (lines 1073-1090):
accumulate fields, issues, total confidence and the processed count. -/
def extractSegGo : List FieldSegmentOCR → FormFields → List (List Char) → ℚ → Nat →
    FormFields × List (List Char) × ℚ × Nat
  | [], fields, issues, total, processed => (fields, issues, total, processed)
  | seg :: rest, fields, issues, total, processed =>
    match seg.ocr with
    | none =>
      extractSegGo rest fields
        (issues ++ [str "Failed to process " ++ fieldTypeName seg.fieldType ++
          str " field: " ++ seg.fieldId])
        total processed
    | some (rawText, ocrConfidence) =>
      let text := jsTrim rawText
      let fi := processFieldSegment seg.fieldType seg.fieldId text fields issues
      extractSegGo rest fi.1 fi.2 (total + ocrConfidence) (processed + 1)

/-- `Extractor.extractFromFieldSegments` (lines 1047-1100): run the loop from
empty fields and issues, average the OCR confidences of the successfully
processed segments (0 when none), and emit the record. This path performs no
`validateExtractedData` call. -/
def extractFromFieldSegments (form : List FieldSegmentOCR) (formNumber : Nat) :
    ExtractedFormData :=
  let r := extractSegGo form emptyFields [] 0 0
  let averageConfidence := if r.2.2.2 > 0 then r.2.2.1 / (r.2.2.2 : ℚ) else 0
  { formNumber := formNumber, confidence := averageConfidence / 100,
    fields := r.1, issues := r.2.1 }

/-! ## Claim theorems: C5 -/

/-- C5 counterexample: for the segment text `Date: 12/31/2021` the per-field
date path produces `2021-31-12` -- the FIRST matched component lands in the
ISO day position -- not the `2021-12-31` the claim's MM/DD/YYYY reading
prescribes; and without a `Date` label no date is matched at all. -/
theorem C5_counterexample_day_month :
    extractDate (str "Date: 12/31/2021") = some (str "2021-31-12") ∧
    str "2021-31-12" ≠ str "2021-12-31" ∧
    extractDate (str "12/31/2021") = none := by
  refine ⟨by decide, by decide, by decide⟩

/-- C5 (amended): a date written after a (case-insensitive) `Date` label as
`D/M/YYYY` or `DD-MM-YYYY` (any mix of `/` and `-`) is matched and normalized
to `YYYY-MM-DD` with the FIRST matched component placed in the ISO day
position and the SECOND in the month position (one-digit components are
zero-padded), and the date-field segment path stores exactly the matched
normalized string. -/
theorem C5_extractDate_first_component_day :
    (∀ d1 d2 m1 m2 y1 y2 y3 y4 : Char,
      isDigitC d1 = true → isDigitC d2 = true → isDigitC m1 = true → isDigitC m2 = true →
      isDigitC y1 = true → isDigitC y2 = true → isDigitC y3 = true → isDigitC y4 = true →
      extractDate (str "Date: " ++ [d1, d2, '/', m1, m2, '/', y1, y2, y3, y4]) =
        some [y1, y2, y3, y4, '-', m1, m2, '-', d1, d2])
    ∧ (∀ d m y1 y2 y3 y4 : Char,
      isDigitC d = true → isDigitC m = true →
      isDigitC y1 = true → isDigitC y2 = true → isDigitC y3 = true → isDigitC y4 = true →
      extractDate (str "Date: " ++ [d, '-', m, '-', y1, y2, y3, y4]) =
        some [y1, y2, y3, y4, '-', '0', m, '-', '0', d])
    ∧ (∀ (fieldId text : List Char) (flds : FormFields) (issues : List (List Char))
        (D : List Char), extractDate text = some D →
      (processFieldSegment FieldType.date_field fieldId text flds issues).1.date = D) := by
  refine ⟨?_, ?_, ?_⟩
  · intro d1 d2 m1 m2 y1 y2 y3 y4 hd1 hd2 hm1 hm2 hy1 hy2 hy3 hy4
    show extractDate ('D' :: 'a' :: 't' :: 'e' :: ':' :: ' ' ::
      d1 :: d2 :: '/' :: m1 :: m2 :: '/' :: y1 :: y2 :: y3 :: y4 :: []) = _
    apply scanFirst_cons_some
    simp only [tryDateAt,
      show dropCI (str "date") ('D' :: 'a' :: 't' :: 'e' :: ':' :: ' ' ::
        d1 :: d2 :: '/' :: m1 :: m2 :: '/' :: y1 :: y2 :: y3 :: y4 :: []) =
        some (':' :: ' ' :: d1 :: d2 :: '/' :: m1 :: m2 :: '/' ::
          y1 :: y2 :: y3 :: y4 :: []) from rfl,
      List.dropWhile_cons, show colonWs ':' = true from rfl, show colonWs ' ' = true from rfl,
      digit_not_colonWs hd1, if_true, Bool.false_eq_true, if_false,
      dateComp, hd1, hd2, hm1, hm2, Bool.true_and,
      show ((('/' : Char) == '/') || (('/' : Char) == '-')) = true from rfl,
      fourDigits, hy1, hy2, hy3, hy4, padStart2]
    simp
  · intro d m y1 y2 y3 y4 hd hm hy1 hy2 hy3 hy4
    show extractDate ('D' :: 'a' :: 't' :: 'e' :: ':' :: ' ' ::
      d :: '-' :: m :: '-' :: y1 :: y2 :: y3 :: y4 :: []) = _
    apply scanFirst_cons_some
    simp only [tryDateAt,
      show dropCI (str "date") ('D' :: 'a' :: 't' :: 'e' :: ':' :: ' ' ::
        d :: '-' :: m :: '-' :: y1 :: y2 :: y3 :: y4 :: []) =
        some (':' :: ' ' :: d :: '-' :: m :: '-' :: y1 :: y2 :: y3 :: y4 :: []) from rfl,
      List.dropWhile_cons, show colonWs ':' = true from rfl, show colonWs ' ' = true from rfl,
      digit_not_colonWs hd, if_true, Bool.false_eq_true, if_false,
      dateComp, hd, hm, Bool.true_and, Bool.false_and, Bool.and_false,
      show isDigitC '-' = false from rfl,
      show ((('-' : Char) == '/') || (('-' : Char) == '-')) = true from rfl,
      fourDigits, hy1, hy2, hy3, hy4, padStart2]
    simp
  · intro fieldId text flds issues D hD
    have hne := extractDate_ne_nil hD
    have hie : ¬ (D.isEmpty = true) := by simpa [List.isEmpty_iff] using hne
    show (match extractDate text with
      | some date =>
        ((if date.isEmpty then flds else { flds with date := date }), issues)
      | none => (flds, issues)).1.date = D
    rw [hD]
    show ((if D.isEmpty then flds else { flds with date := D }), issues).1.date = D
    rw [if_neg hie]

/-- Witness for C5 at `Date: 12/31/2021`. -/
theorem C5_extractDate_first_component_day_witness :
    extractDate (str "Date: 12/31/2021") = some [ '2', '0', '2', '1', '-', '3', '1', '-', '1', '2'] := by
  have h := C5_extractDate_first_component_day.1 '1' '2' '3' '1' '2' '0' '2' '1'
    (by decide) (by decide) (by decide) (by decide) (by decide) (by decide) (by decide) (by decide)
  rw [show str "Date: 12/31/2021" =
    str "Date: " ++ ['1', '2', '/', '3', '1', '/', '2', '0', '2', '1'] from by decide]
  exact h

/-! ## Extractor.parseFormText (payment-detection.ts lines 1160-1263)

Each source regex is hand-compiled to a matcher over `List Char`. Greedy
quantifiers whose character class is disjoint from what follows are compiled
to `takeWhile`/`dropWhile`; the two places where JavaScript backtracking is
observable (a star whose class overlaps the following capture class, and a
greedy `[^,\n]+`/domain part followed by more pattern) are compiled to an
explicit longest-first search (`downFrom`). -/

/-- The gate regex `/(?:Mr\.|Ms\.|First Name:|Last Name:)\s*([A-Za-z\s]+)/gi`
matches at a position iff one of the cues matches there and the next character
is a letter or whitespace (since `\s` is inside the capture class, the
star/plus interplay reduces to exactly that condition). -/
def nameCueHit (l : List Char) : Option Unit :=
  if [str "mr.", str "ms.", str "first name:", str "last name:"].any (fun cue =>
      match dropCI cue l with
      | some rest =>
        match rest.head? with
        | some c => alphaWs c
        | none => false
      | none => false) then some () else none

def hasNameCue (t : List Char) : Bool := (scanFirst nameCueHit t).isSome

/-- Capture of `[:\s]*([A-Za-z\s]+)` immediately after a cue: if the first
character after the greedy `[:\s]*` run is a letter, the capture is the
following `[A-Za-z\s]` run; otherwise the star backtracks minimally and the
capture is the last whitespace character of the run (whitespace is in both
classes, colons only in the star's); no whitespace in the run means no match
at this cue position. -/
def capColonWsAlpha (l : List Char) : Option (List Char) :=
  let run := l.takeWhile colonWs
  let rest := l.drop run.length
  match rest.head? with
  | some c =>
    if isAlphaC c then some (rest.takeWhile alphaWs)
    else
      match run.reverse.find? jsWs with
      | some w => some [w]
      | none => none
  | none =>
    match run.reverse.find? jsWs with
    | some w => some [w]
    | none => none

/-- First match of `(?:cue1|cue2|…)[:\s]*([A-Za-z\s]+)` over the text,
returning the capture. -/
def captureAfterCues (cues : List (List Char)) (t : List Char) : Option (List Char) :=
  scanFirst (fun l => firstSome (fun cue => (dropCI cue l).bind capColonWsAlpha) cues) t

/-- Regex classes of the email pattern
`/E[-\s]?[Mm]ail[:\s]*([a-zA-Z0-9._%+-]+@[a-zA-Z0-9.-]+\.[a-zA-Z]{2,})/i`. -/
def localCls (c : Char) : Bool :=
  isAlphaC c || isDigitC c || c == '.' || c == '_' || c == '%' || c == '+' || c == '-'

def domainCls (c : Char) : Bool := isAlphaC c || isDigitC c || c == '.' || c == '-'

/-- Greedy backtracking split of the domain run: the longest non-empty prefix
followed by a literal dot and at least two letters; the TLD is the maximal
letter run after that dot. -/
def emailDomainSplit (drun : List Char) : Option (List Char) :=
  firstSome (fun i =>
    if i = 0 then none
    else
      match drun.drop i with
      | '.' :: t1 :: t2 :: _ =>
        if isAlphaC t1 && isAlphaC t2 then
          some (drun.take i ++ ('.' :: (drun.drop (i + 1)).takeWhile isAlphaC))
        else none
      | _ => none) (downFrom drun.length)

/-- One attempt of the email regex at a position (the optional `[-\s]?` is
tried consuming first, then skipping, as the engine does). -/
def emailAt (l : List Char) : Option (List Char) :=
  match dropCI (str "e") l with
  | none => none
  | some r0 =>
    let cands := match r0 with
      | c :: rest => if c == '-' || jsWs c then [rest, r0] else [r0]
      | [] => [r0]
    firstSome (fun r1 =>
      match dropCI (str "mail") r1 with
      | none => none
      | some r2 =>
        let r3 := r2.dropWhile colonWs
        let localPart := r3.takeWhile localCls
        if localPart.isEmpty then none
        else
          match r3.drop localPart.length with
          | '@' :: r4 =>
            (emailDomainSplit (r4.takeWhile domainCls)).map
              (fun dom => localPart ++ ('@' :: dom))
          | _ => none) cands

/-- `\d{3}` at the head. -/
def take3d : List Char → Option (List Char × List Char)
  | a :: b :: c :: r =>
    if isDigitC a && isDigitC b && isDigitC c then some ([a, b, c], r) else none
  | _ => none

/-- Regex class `[-.\s]` of the phone pattern. -/
def sepCls (c : Char) : Bool := c == '-' || c == '.' || jsWs c

/-- One attempt of
`/(?:Phone|Telephone)[:\s]*\(?(\d{3})\)?[-.\s]*(\d{3})[-.\s]*(\d{4})/i`
at a position (all classes are pairwise disjoint from what follows, so the
match is deterministic). -/
def phoneAt (l : List Char) : Option (List Char × List Char × List Char) :=
  match firstSome (fun cue => dropCI cue l) [str "phone", str "telephone"] with
  | none => none
  | some r0 =>
    let r1 := r0.dropWhile colonWs
    let r2 := match r1 with
      | '(' :: t => t
      | t => t
    match take3d r2 with
    | none => none
    | some (g1, r3) =>
      let r4 := match r3 with
        | ')' :: t => t
        | t => t
      match take3d (r4.dropWhile sepCls) with
      | none => none
      | some (g2, r6) =>
        match takeDigits4 (r6.dropWhile sepCls) with
        | none => none
        | some (g3, _) => some (g1, g2, g3)

/-- One attempt of `/Address[:\s]*([^\n]+)/i` at a position: after the greedy
`[:\s]*` run, the capture is the following non-newline run; when the text ends
inside the run the star backtracks to the run's last non-newline character. -/
def addressAt (l : List Char) : Option (List Char) :=
  match dropCI (str "address") l with
  | none => none
  | some r0 =>
    let run := r0.takeWhile colonWs
    match r0.drop run.length with
    | c :: rest => some ((c :: rest).takeWhile fun x => !(x == '\n'))
    | [] =>
      match run.reverse.find? (fun x => !(x == '\n')) with
      | some w => some [w]
      | none => none

/-- Regex classes of the City/State/Zip pattern. -/
def notCommaNl (c : Char) : Bool := !(c == ',') && !(c == '\n')

def wsComma (c : Char) : Bool := jsWs c || c == ','

/-- `\d{5}` at the head. -/
def take5d : List Char → Option (List Char)
  | a :: b :: c :: d :: e :: _ =>
    if isDigitC a && isDigitC b && isDigitC c && isDigitC d && isDigitC e then
      some [a, b, c, d, e]
    else none
  | _ => none

/-- The tail `[\s,]*State[:\s]*([A-Z]{2})[\s,]*Zip(?:\s*Code)?[:\s]*(\d{5})`
of the City/State/Zip regex (case-insensitive, so the two state letters are
any letters; the optional `Code` group is tried consuming first). -/
def cszTail (l : List Char) : Option (List Char × List Char) :=
  match dropCI (str "state") (l.dropWhile wsComma) with
  | none => none
  | some r1 =>
    match r1.dropWhile colonWs with
    | a :: b :: r3 =>
      if isAlphaC a && isAlphaC b then
        match dropCI (str "zip") (r3.dropWhile wsComma) with
        | none => none
        | some r5 =>
          let tryRest := fun (r6 : List Char) =>
            (take5d (r6.dropWhile colonWs)).map fun z => ([a, b], z)
          match dropCI (str "code") (r5.dropWhile jsWs) with
          | some r6 => (tryRest r6).orElse fun _ => tryRest r5
          | none => tryRest r5
      else none
    | _ => none

/-- One attempt of
`/City[:\s]*([^,\n]+)[\s,]*State[:\s]*([A-Z]{2})[\s,]*Zip(?:\s*Code)?[:\s]*(\d{5})/i`
at a position: the greedy `[:\s]*` star and the greedy `[^,\n]+` capture
backtrack longest-first until the tail matches. -/
def cszAt (l : List Char) : Option (List Char × List Char × List Char) :=
  match dropCI (str "city") l with
  | none => none
  | some r0 =>
    let run0 := r0.takeWhile colonWs
    let restA := r0.drop run0.length
    firstSome (fun i =>
      let afterStar := run0.drop i ++ restA
      let brun := afterStar.takeWhile notCommaNl
      firstSome (fun j =>
        if j = 0 then none
        else
          match cszTail (brun.drop j ++ afterStar.drop brun.length) with
          | some (st, zp) => some (brun.take j, st, zp)
          | none => none) (downFrom brun.length)) (downFrom run0.length)

/-- One attempt of the labeled card-number regex
`/(?:Account No|Credit Card number)[:\s]*(\d{4}\s*\d{4}\s*\d{4}\s*\d{4}|\d{16})/i`;
the captured group has its whitespace stripped (`.replace(/\s/g, '')`). -/
def cardNumberLabeledAt (l : List Char) : Option (List Char) :=
  match firstSome (fun cue => dropCI cue l) [str "account no", str "credit card number"] with
  | none => none
  | some r0 =>
    match cardNumAt (r0.dropWhile colonWs) with
    | some (m, _) => some (m.filter fun c => !(jsWs c))
    | none => none

/-- `(\d{2,4})`, greedy. -/
def take2to4d : List Char → Option (List Char)
  | a :: b :: c :: d :: _ =>
    if isDigitC a && isDigitC b && isDigitC c && isDigitC d then some [a, b, c, d]
    else if isDigitC a && isDigitC b && isDigitC c then some [a, b, c]
    else if isDigitC a && isDigitC b then some [a, b]
    else none
  | a :: b :: c :: _ =>
    if isDigitC a && isDigitC b && isDigitC c then some [a, b, c]
    else if isDigitC a && isDigitC b then some [a, b]
    else none
  | a :: b :: _ =>
    if isDigitC a && isDigitC b then some [a, b]
    else none
  | _ => none

/-- One attempt of `/(?:Expires on|Exp date)[:\s]*(\d{1,2})[\/\-](\d{2,4})/i`;
the result is already normalized as the source does: 2-digit years get `20`
prefixed, then the last two year characters follow `MM/`. -/
def expiryAt (l : List Char) : Option (List Char) :=
  match firstSome (fun cue => dropCI cue l) [str "expires on", str "exp date"] with
  | none => none
  | some r0 =>
    match dateComp (r0.dropWhile colonWs) with
    | none => none
    | some (m, r1) =>
      match take2to4d r1 with
      | none => none
      | some y =>
        let year := if y.length = 2 then str "20" ++ y else y
        some (padStart2 m ++ ('/' :: lastN 2 year))

/-- Regex class `[:\s#]` of the CVV pattern. -/
def colonWsHash (c : Char) : Bool := c == ':' || c == '#' || jsWs c

/-- `(\d{3,4})`, greedy. -/
def take3or4d : List Char → Option (List Char)
  | a :: b :: c :: d :: _ =>
    if isDigitC a && isDigitC b && isDigitC c && isDigitC d then some [a, b, c, d]
    else if isDigitC a && isDigitC b && isDigitC c then some [a, b, c]
    else none
  | a :: b :: c :: _ =>
    if isDigitC a && isDigitC b && isDigitC c then some [a, b, c]
    else none
  | _ => none

/-- One attempt of
`/(?:Card Verification|CVN|CVV|Verification code)[:\s#]*(\d{3,4})/i`. -/
def cvvAt (l : List Char) : Option (List Char) :=
  match firstSome (fun cue => dropCI cue l)
      [str "card verification", str "cvn", str "cvv", str "verification code"] with
  | none => none
  | some r0 => take3or4d (r0.dropWhile colonWsHash)

/-- `Extractor.extractPaymentInfo` (the private method, lines 1295-1355):
cash requires a lowercase `cash` plus a literal `X` or checkmark; `check`
anywhere wins next; otherwise `detectCreditCardType` decides, and a positive
detection also extracts the labeled card number, expiry, CVV and signature
name; no detection yields method `Unknown`. -/
def extractPaymentInfo (text : List Char) : List Char × PaymentDetails :=
  if containsSub (str "cash") (text.map lowerC) &&
      (containsSub (str "X") text || containsSub (str "✓") text) then
    (str "Cash", emptyPaymentDetails)
  else if containsSub (str "check") (text.map lowerC) then
    (str "Check", emptyPaymentDetails)
  else
    let ctd := detectCreditCardType text
    if ctd.cardType.isEmpty then (str "Unknown", emptyPaymentDetails)
    else
      let pd1 := { emptyPaymentDetails with cardType := ctd.cardType }
      let pd2 := match scanFirst cardNumberLabeledAt text with
        | some num => { pd1 with cardNumber := num }
        | none => pd1
      let pd3 := match scanFirst expiryAt text with
        | some e => { pd2 with expiryDate := e }
        | none => pd2
      let pd4 := match scanFirst cvvAt text with
        | some v => { pd3 with cvv := v }
        | none => pd3
      let pd5 := match captureAfterCues [str "signature"] text with
        | some s => { pd4 with cardholderName := jsTrim s }
        | none => pd4
      (str "Credit Card (" ++ ctd.cardType ++ str ")", pd5)

/-- `Extractor.validateExtractedData` (lines 1415-1439): append an issue for a
missing or under-2-character donor name, a present-but-malformed email, a
missing phone, a non-positive amount, and a raw OCR confidence below 80. -/
def validateExtractedData (fields : FormFields) (issues : List (List Char))
    (confidence : ℚ) : List (List Char) :=
  issues ++
  (if fields.donorName.isEmpty || decide (fields.donorName.length < 2) then
    [str "Donor name could not be extracted clearly"] else []) ++
  (if !fields.email.isEmpty && !(isValidEmail fields.email) then
    [str "Email format appears incorrect"] else []) ++
  (if fields.phone.isEmpty then [str "Phone number could not be extracted"] else []) ++
  (if decide (fields.amount ≤ 0) then [str "Donation amount could not be determined"] else []) ++
  (if decide (confidence < 80) then [str "OCR confidence is below optimal threshold"] else [])

/-- `Extractor.parseFormText` (lines 1160-1263): the fallback whole-page parse.
Fields are extracted by the regex rules above, then `validateExtractedData`
runs on the still-empty issue list (nothing appends an issue before it on this
path). -/
def parseFormText (ocrText : List Char) (confidence : ℚ) :
    FormFields × List (List Char) :=
  let f1 :=
    if hasNameCue ocrText then
      match captureAfterCues [str "first name"] ocrText,
            captureAfterCues [str "last name"] ocrText with
      | some fn, some ln =>
        { emptyFields with donorName := jsTrim fn ++ (' ' :: jsTrim ln) }
      | _, _ =>
        match captureAfterCues [str "mr.", str "ms."] ocrText with
        | some full => { emptyFields with donorName := jsTrim full }
        | none => emptyFields
    else emptyFields
  let f2 := match scanFirst emailAt ocrText with
    | some em => { f1 with email := jsTrim em }
    | none => f1
  let f3 := match scanFirst phoneAt ocrText with
    | some (g1, g2, g3) =>
      { f2 with phone := ('(' :: g1) ++ str ") " ++ g2 ++ ('-' :: g3) }
    | none => f2
  let f4 := match scanFirst addressAt ocrText with
    | some addr =>
      match scanFirst cszAt ocrText with
      | some (city, st, zp) =>
        { f3 with address := jsTrim addr ++ str ", " ++ jsTrim city ++ str ", " ++
            st ++ (' ' :: zp) }
      | none => { f3 with address := jsTrim addr }
    | none => f3
  let f5 := { f4 with amount := extractAmount ocrText }
  let pm := extractPaymentInfo ocrText
  let f6 := { f5 with paymentMethod := pm.1, paymentDetails := pm.2 }
  let f7 := { f6 with recurring :=
    (containsSub (str "monthly") (ocrText.map lowerC) &&
      !(containsSub (str "one time") (ocrText.map lowerC))) }
  let f8 := match extractDate ocrText with
    | some d => if d.isEmpty then f7 else { f7 with date := d }
    | none => f7
  (f8, validateExtractedData f8 [] confidence)

theorem validateExtractedData_mem (fields : FormFields) (issues : List (List Char))
    (conf : ℚ) :
    (fields.donorName.length < 2 →
      str "Donor name could not be extracted clearly" ∈ validateExtractedData fields issues conf)
    ∧ (fields.email ≠ [] → isValidEmail fields.email = false →
      str "Email format appears incorrect" ∈ validateExtractedData fields issues conf)
    ∧ (fields.phone = [] →
      str "Phone number could not be extracted" ∈ validateExtractedData fields issues conf)
    ∧ (fields.amount = 0 →
      str "Donation amount could not be determined" ∈ validateExtractedData fields issues conf)
    ∧ (conf < 80 →
      str "OCR confidence is below optimal threshold" ∈ validateExtractedData fields issues conf) := by
  refine ⟨fun h => ?_, fun h1 h2 => ?_, fun h => ?_, fun h => ?_, fun h => ?_⟩
  · have hc : (fields.donorName.isEmpty || decide (fields.donorName.length < 2)) = true := by
      simp [h]
    simp [validateExtractedData, hc, List.mem_append]
  · have hc : (!fields.email.isEmpty && !(isValidEmail fields.email)) = true := by
      simp [List.isEmpty_iff, h1, h2]
    simp [validateExtractedData, hc, List.mem_append]
  · have hc : fields.phone.isEmpty = true := by simp [List.isEmpty_iff, h]
    simp [validateExtractedData, hc, List.mem_append]
  · have hc : decide (fields.amount ≤ 0) = true := by simp [h]
    simp [validateExtractedData, hc, List.mem_append, h]
  · have hc : decide (conf < 80) = true := decide_eq_true h
    simp [validateExtractedData, hc, List.mem_append]

/-! ## Claim theorems: C1 -/

/-- C1 counterexample: a segmented form whose only segment is an amount field
reading `$5` is emitted with `amount = 0` and an EMPTY issue list -- the
field-segment path never calls `validateExtractedData`, so no
`Donation amount could not be determined` issue appears, contradicting the
claim's "for every form record the Extractor emits". -/
theorem C1_counterexample_segment_path :
    (extractFromFieldSegments
      [⟨FieldType.amount_field, str "form_1_1_amount", some (str "$5", 95)⟩] 1).fields.amount = 0
    ∧ str "Donation amount could not be determined" ∉
      (extractFromFieldSegments
        [⟨FieldType.amount_field, str "form_1_1_amount", some (str "$5", 95)⟩] 1).issues
    ∧ (extractFromFieldSegments
        [⟨FieldType.amount_field, str "form_1_1_amount", some (str "$5", 95)⟩] 1).issues = [] := by
  refine ⟨by decide, by decide, by decide⟩

/-- C1 (amended): on the whole-page parse path (`parseFormText`, the path that
runs `validateExtractedData`) the emitted record's issue list contains an
entry for each condition that holds -- short/missing donor name, present but
malformed email, missing phone, non-positive amount, OCR confidence below 80
-- and a page whose only amount-like text is `$5` yields `amount = 0` with the
`Donation amount could not be determined` issue; the field-segment path emits
its record without this validation. -/
theorem C1_parseFormText_validation :
    (∀ (t : List Char) (conf : ℚ),
      ((parseFormText t conf).1.donorName.length < 2 →
        str "Donor name could not be extracted clearly" ∈ (parseFormText t conf).2)
      ∧ ((parseFormText t conf).1.email ≠ [] →
          isValidEmail (parseFormText t conf).1.email = false →
        str "Email format appears incorrect" ∈ (parseFormText t conf).2)
      ∧ ((parseFormText t conf).1.phone = [] →
        str "Phone number could not be extracted" ∈ (parseFormText t conf).2)
      ∧ ((parseFormText t conf).1.amount = 0 →
        str "Donation amount could not be determined" ∈ (parseFormText t conf).2)
      ∧ (conf < 80 →
        str "OCR confidence is below optimal threshold" ∈ (parseFormText t conf).2))
    ∧ ((parseFormText (str "$5") 90).1.amount = 0 ∧
        str "Donation amount could not be determined" ∈ (parseFormText (str "$5") 90).2) := by
  constructor
  · intro t conf
    have hsplit : (parseFormText t conf).2 =
        validateExtractedData (parseFormText t conf).1 [] conf := rfl
    rw [hsplit]
    exact validateExtractedData_mem (parseFormText t conf).1 [] conf
  · exact ⟨by decide, by decide⟩

/-- Witness for C3: the classic Visa test number 4111111111111111 has 16
digits and Luhn checksum 0 mod 10, and `validateCardNumber` accepts it. -/
theorem C3_validateCardNumber_luhn_witness :
    validateCardNumber (str "4111111111111111") = true :=
  ((C3_validateCardNumber_luhn (str "4111111111111111")).1 (by decide) (by decide)).mpr (by decide)
